import Mathlib

/-!
Verification of the claude-code-memory repository core (models.py, database.py).

The Python source is shallowly embedded:
  - Python str is modelled as List Char (PyStr); str.strip and str.lower are
    modelled over the ASCII fragment Lean core supports (pystrip, pylower).
  - Python float fields (importance, confidence, strength, ...) are modelled
    as Rat: all source values lie in [0, 1] and only comparisons are used.
  - datetime instants are modelled as Nat; an ISO-8601 string carrying the
    instant t is modelled as the tagged property value PropValue.time t
    (datetime.isoformat is injective and datetime.fromisoformat inverts it,
    so the pair is modelled as a tagged value; any other string is a
    non-timestamp string and fromisoformat fails on it).
  - pydantic construction/validation is modelled by explicit constructor
    functions returning Except with the offending field name, mirroring
    field-constraint checks followed by the declared validators.
  - Neo4j node property maps are association lists PyStr × PropValue; the
    Cypher statements issued by database.py are modelled by their documented
    semantics on an explicit graph state (nodes keyed by memory id, edges
    with an internal identity distinguishing parallel relationships).
-/

/-! The embedded definitions. -/

/-- Python strings, modelled as lists of characters. -/
abbrev PyStr := List Char

/-- Conversion from Lean string literals to the PyStr model. -/
def s2p (s : String) : PyStr := s.toList

/-- Whitespace test used by str.strip, modelled by Char.isWhitespace. -/
def pyws (c : Char) : Bool := c.isWhitespace

/-- Model of Python str.strip(): drop whitespace from both ends. -/
def pystrip (l : PyStr) : PyStr :=
  ((l.dropWhile pyws).reverse.dropWhile pyws).reverse

/-- Model of Python str.lower() (ASCII fragment, as in Char.toLower). -/
def pylower (l : PyStr) : PyStr := l.map Char.toLower

/-- Model of Python truthiness of a string: non-empty. -/
def pyTruthy (l : PyStr) : Bool := decide (l ≠ [])

/-- Model of the Memory.validate_tags validator in models.py:
tag.lower().strip() for each tag whose tag.strip() is truthy. -/
def validate_tags : List PyStr → List PyStr
  | [] => []
  | t :: ts =>
    if pystrip t = [] then validate_tags ts
    else pystrip (pylower t) :: validate_tags ts

/-- The rational one half (the float 0.5 of the source), written as a
literal normalized fraction so that kernel evaluation works. -/
def ratHalf : Rat := ⟨1, 2, by decide, by simp⟩

/-- The rational four fifths (the float 0.8 of the source). -/
def ratFourFifths : Rat := ⟨4, 5, by decide, by norm_num⟩


/-- Types of memories that can be stored in the system (MemoryType enum). -/
inductive MemoryType
  | task | code_pattern | problem | solution | project | technology
  | error | fix | command | file_context | workflow | general
deriving DecidableEq

/-- String value of each MemoryType member. -/
def MemoryType.value : MemoryType → PyStr
  | .task => s2p "task"
  | .code_pattern => s2p "code_pattern"
  | .problem => s2p "problem"
  | .solution => s2p "solution"
  | .project => s2p "project"
  | .technology => s2p "technology"
  | .error => s2p "error"
  | .fix => s2p "fix"
  | .command => s2p "command"
  | .file_context => s2p "file_context"
  | .workflow => s2p "workflow"
  | .general => s2p "general"

/-- Model of the MemoryType(value) enum lookup: None on unknown values
(the Python call raises ValueError, which decoding catches). -/
def MemoryType.ofValue? (s : PyStr) : Option MemoryType :=
  if s = s2p "task" then some .task
  else if s = s2p "code_pattern" then some .code_pattern
  else if s = s2p "problem" then some .problem
  else if s = s2p "solution" then some .solution
  else if s = s2p "project" then some .project
  else if s = s2p "technology" then some .technology
  else if s = s2p "error" then some .error
  else if s = s2p "fix" then some .fix
  else if s = s2p "command" then some .command
  else if s = s2p "file_context" then some .file_context
  else if s = s2p "workflow" then some .workflow
  else if s = s2p "general" then some .general
  else none

/-- Types of relationships between memories (RelationshipType enum). -/
inductive RelationshipType
  | CAUSES | TRIGGERS | LEADS_TO | PREVENTS | BREAKS
  | SOLVES | ADDRESSES | ALTERNATIVE_TO | IMPROVES | REPLACES
  | OCCURS_IN | APPLIES_TO | WORKS_WITH | REQUIRES | USED_IN
  | BUILDS_ON | CONTRADICTS | CONFIRMS | GENERALIZES | SPECIALIZES
  | SIMILAR_TO | VARIANT_OF | RELATED_TO | ANALOGY_TO | OPPOSITE_OF
  | FOLLOWS | DEPENDS_ON | ENABLES | BLOCKS | PARALLEL_TO
  | EFFECTIVE_FOR | INEFFECTIVE_FOR | PREFERRED_OVER | DEPRECATED_BY | VALIDATED_BY
deriving DecidableEq

/-- String value of each RelationshipType member. -/
def RelationshipType.value : RelationshipType → PyStr
  | .CAUSES => s2p "CAUSES"
  | .TRIGGERS => s2p "TRIGGERS"
  | .LEADS_TO => s2p "LEADS_TO"
  | .PREVENTS => s2p "PREVENTS"
  | .BREAKS => s2p "BREAKS"
  | .SOLVES => s2p "SOLVES"
  | .ADDRESSES => s2p "ADDRESSES"
  | .ALTERNATIVE_TO => s2p "ALTERNATIVE_TO"
  | .IMPROVES => s2p "IMPROVES"
  | .REPLACES => s2p "REPLACES"
  | .OCCURS_IN => s2p "OCCURS_IN"
  | .APPLIES_TO => s2p "APPLIES_TO"
  | .WORKS_WITH => s2p "WORKS_WITH"
  | .REQUIRES => s2p "REQUIRES"
  | .USED_IN => s2p "USED_IN"
  | .BUILDS_ON => s2p "BUILDS_ON"
  | .CONTRADICTS => s2p "CONTRADICTS"
  | .CONFIRMS => s2p "CONFIRMS"
  | .GENERALIZES => s2p "GENERALIZES"
  | .SPECIALIZES => s2p "SPECIALIZES"
  | .SIMILAR_TO => s2p "SIMILAR_TO"
  | .VARIANT_OF => s2p "VARIANT_OF"
  | .RELATED_TO => s2p "RELATED_TO"
  | .ANALOGY_TO => s2p "ANALOGY_TO"
  | .OPPOSITE_OF => s2p "OPPOSITE_OF"
  | .FOLLOWS => s2p "FOLLOWS"
  | .DEPENDS_ON => s2p "DEPENDS_ON"
  | .ENABLES => s2p "ENABLES"
  | .BLOCKS => s2p "BLOCKS"
  | .PARALLEL_TO => s2p "PARALLEL_TO"
  | .EFFECTIVE_FOR => s2p "EFFECTIVE_FOR"
  | .INEFFECTIVE_FOR => s2p "INEFFECTIVE_FOR"
  | .PREFERRED_OVER => s2p "PREFERRED_OVER"
  | .DEPRECATED_BY => s2p "DEPRECATED_BY"
  | .VALIDATED_BY => s2p "VALIDATED_BY"

/-- All RelationshipType members, used for the enum value lookup. -/
def RelationshipType.all : List RelationshipType :=
  [.CAUSES, .TRIGGERS, .LEADS_TO, .PREVENTS, .BREAKS,
   .SOLVES, .ADDRESSES, .ALTERNATIVE_TO, .IMPROVES, .REPLACES,
   .OCCURS_IN, .APPLIES_TO, .WORKS_WITH, .REQUIRES, .USED_IN,
   .BUILDS_ON, .CONTRADICTS, .CONFIRMS, .GENERALIZES, .SPECIALIZES,
   .SIMILAR_TO, .VARIANT_OF, .RELATED_TO, .ANALOGY_TO, .OPPOSITE_OF,
   .FOLLOWS, .DEPENDS_ON, .ENABLES, .BLOCKS, .PARALLEL_TO,
   .EFFECTIVE_FOR, .INEFFECTIVE_FOR, .PREFERRED_OVER, .DEPRECATED_BY, .VALIDATED_BY]

/-- Model of the RelationshipType(value) enum lookup: None on unknown values. -/
def RelationshipType.ofValue? (s : PyStr) : Option RelationshipType :=
  RelationshipType.all.find? (fun rt => rt.value = s)

/-- Context information for a memory (MemoryContext model). Values of the
additional_metadata mapping (Dict[str, Any] in the source) are modelled
as strings. -/
structure MemoryContext where
  project_path : Option PyStr := none
  files_involved : List PyStr := []
  languages : List PyStr := []
  frameworks : List PyStr := []
  technologies : List PyStr := []
  git_commit : Option PyStr := none
  git_branch : Option PyStr := none
  working_directory : Option PyStr := none
  timestamp : Nat
  session_id : Option PyStr := none
  user_id : Option PyStr := none
  additional_metadata : List (PyStr × PyStr) := []
deriving DecidableEq

/-- Core memory data structure (Memory model), holding already-validated
field values. -/
structure Memory where
  id : Option PyStr := none
  type : MemoryType
  title : PyStr
  content : PyStr
  summary : Option PyStr := none
  tags : List PyStr := []
  context : Option MemoryContext := none
  importance : Rat := ratHalf
  confidence : Rat := ratFourFifths
  effectiveness : Option Rat := none
  usage_count : Nat := 0
  created_at : Nat
  updated_at : Nat
  last_accessed : Option Nat := none
deriving DecidableEq

/-- Bool check that an optional string is at most 500 characters. -/
def optLe500 : Option PyStr → Bool
  | none => true
  | some s => s.length ≤ 500

/-- Bool check that a Rat lies in the closed unit interval. -/
def inUnit (x : Rat) : Bool := decide (0 ≤ x) && decide (x ≤ 1)

/-- Bool check that an optional Rat lies in the closed unit interval. -/
def optInUnit : Option Rat → Bool
  | none => true
  | some x => inUnit x

/-- Model of pydantic construction of Memory: field constraints in
declaration order, then the declared validators (tags are normalized,
title and content are stripped).  The error carries the name of the
offending field. -/
def Memory.mk? (id : Option PyStr) (type : MemoryType) (title content : PyStr)
    (summary : Option PyStr) (tags : List PyStr) (context : Option MemoryContext)
    (importance confidence : Rat) (effectiveness : Option Rat) (usage_count : Int)
    (created_at updated_at : Nat) (last_accessed : Option Nat) :
    Except PyStr Memory :=
  if ¬(1 ≤ title.length ∧ title.length ≤ 200) then .error (s2p "title")
  else if content.length < 1 then .error (s2p "content")
  else if optLe500 summary = false then .error (s2p "summary")
  else if inUnit importance = false then .error (s2p "importance")
  else if inUnit confidence = false then .error (s2p "confidence")
  else if optInUnit effectiveness = false then .error (s2p "effectiveness")
  else if usage_count < 0 then .error (s2p "usage_count")
  else .ok
    { id := id, type := type, title := pystrip title, content := pystrip content,
      summary := summary, tags := validate_tags tags, context := context,
      importance := importance, confidence := confidence,
      effectiveness := effectiveness, usage_count := usage_count.toNat,
      created_at := created_at, updated_at := updated_at,
      last_accessed := last_accessed }

/-- Properties for relationships between memories (RelationshipProperties). -/
structure RelationshipProperties where
  strength : Rat := ratHalf
  confidence : Rat := ratFourFifths
  context : Option PyStr := none
  evidence_count : Nat := 1
  success_rate : Option Rat := none
  created_at : Nat
  last_validated : Nat
  validation_count : Nat := 0
  counter_evidence_count : Nat := 0
deriving DecidableEq

/-- Model of pydantic construction of RelationshipProperties from strength
and confidence with every other field defaulted, as done by the
relationship synthesis in get_related_memories; the timestamp defaults
take the construction instant. -/
def RelationshipProperties.mkSynth? (strength confidence : Rat) (now : Nat) :
    Except PyStr RelationshipProperties :=
  if inUnit strength = false then .error (s2p "strength")
  else if inUnit confidence = false then .error (s2p "confidence")
  else .ok { strength := strength, confidence := confidence,
             created_at := now, last_validated := now }

/-- Relationship between two memories (Relationship model). -/
structure Relationship where
  id : Option PyStr := none
  from_memory_id : PyStr
  to_memory_id : PyStr
  type : RelationshipType
  properties : RelationshipProperties
  description : Option PyStr := none
  bidirectional : Bool := false
deriving DecidableEq

/-- Model of pydantic construction of Relationship: the validate_memory_ids
validator rejects ids that are empty or whitespace-only and strips both
endpoint ids. -/
def Relationship.mk? (id : Option PyStr) (from_memory_id to_memory_id : PyStr)
    (type : RelationshipType) (properties : RelationshipProperties)
    (description : Option PyStr) (bidirectional : Bool) :
    Except PyStr Relationship :=
  if pystrip from_memory_id = [] then .error (s2p "from_memory_id")
  else if pystrip to_memory_id = [] then .error (s2p "to_memory_id")
  else .ok
    { id := id, from_memory_id := pystrip from_memory_id,
      to_memory_id := pystrip to_memory_id, type := type,
      properties := properties, description := description,
      bidirectional := bidirectional }

/-- Search query parameters for memory retrieval (SearchQuery model). -/
structure SearchQuery where
  query : Option PyStr := none
  memory_types : List MemoryType := []
  tags : List PyStr := []
  project_path : Option PyStr := none
  languages : List PyStr := []
  frameworks : List PyStr := []
  min_importance : Option Rat := none
  min_confidence : Option Rat := none
  min_effectiveness : Option Rat := none
  created_after : Option Nat := none
  created_before : Option Nat := none
  limit : Nat := 20
  include_relationships : Bool := true
deriving DecidableEq


/-- Values a flat Neo4j property can hold in this embedding.  A Python
datetime serialized by isoformat is modelled as the tagged value time t;
str(list) and str(dict) results are ordinary strings built by the pyRepr
functions below. -/
inductive PropValue
  | s (v : PyStr)
  | q (v : Rat)
  | n (v : Int)
  | list (v : List PyStr)
  | time (t : Nat)
  | null
deriving DecidableEq

/-- Flat property mappings, as insertion-ordered association lists. -/
abbrev PropMap := List (PyStr × PropValue)

/-- Key lookup in a property mapping. -/
def pget (k : PyStr) : PropMap → Option PropValue
  | [] => none
  | (k2, v) :: rest => if k2 = k then some v else pget k rest

/-- Single quote character, for Python repr strings. -/
def sqc : Char := Char.ofNat 39

/-- Join pieces with a separator, as str.join does. -/
def joinSep (sep : PyStr) : List PyStr → PyStr
  | [] => []
  | [x] => x
  | x :: xs => x ++ sep ++ joinSep sep xs

/-- Model of Python repr of a list of strings, as produced by str(value). -/
def pyReprStrList (l : List PyStr) : PyStr :=
  [Char.ofNat 91] ++ joinSep (s2p ", ") (l.map fun x => sqc :: x ++ [sqc]) ++ [Char.ofNat 93]

/-- Model of Python repr of a dict of strings, as produced by str(value). -/
def pyReprDict (d : List (PyStr × PyStr)) : PyStr :=
  [Char.ofNat 123] ++
    joinSep (s2p ", ") (d.map fun kv => sqc :: kv.1 ++ [sqc] ++ s2p ": " ++ sqc :: kv.2 ++ [sqc]) ++
    [Char.ofNat 125]

/-- One optional entry of a property mapping: no key at all when absent. -/
def optEntry (k : PyStr) (o : Option PropValue) : PropMap :=
  match o with
  | none => []
  | some v => [(k, v)]

/-- Entry for a list-valued context field: str(value) if non-empty, else a
null value under the same key (props[key] = str(value) if value else None). -/
def listCtxEntry (k : PyStr) (l : List PyStr) : PropMap :=
  [(k, if l = [] then PropValue.null else PropValue.s (pyReprStrList l))]

/-- Entry for the dict-valued context field, analogous to listCtxEntry. -/
def dictCtxEntry (k : PyStr) (d : List (PyStr × PyStr)) : PropMap :=
  [(k, if d = [] then PropValue.null else PropValue.s (pyReprDict d))]

/-- Optional string field filtered by Python truthiness (if self.memory.summary:). -/
def truthyStrOpt : Option PyStr → Option PropValue
  | none => none
  | some s => if s = [] then none else some (.s s)

/-- Flattening of the nested context object into prefixed properties, in
field declaration order, as the context loop of to_neo4j_properties does:
None fields are skipped, datetimes are isoformatted, lists and dicts go
through str(value) if non-empty and become null entries when empty. -/
def contextProps (c : MemoryContext) : PropMap :=
  optEntry (s2p "context_project_path") (c.project_path.map .s) ++
  listCtxEntry (s2p "context_files_involved") c.files_involved ++
  listCtxEntry (s2p "context_languages") c.languages ++
  listCtxEntry (s2p "context_frameworks") c.frameworks ++
  listCtxEntry (s2p "context_technologies") c.technologies ++
  optEntry (s2p "context_git_commit") (c.git_commit.map .s) ++
  optEntry (s2p "context_git_branch") (c.git_branch.map .s) ++
  optEntry (s2p "context_working_directory") (c.working_directory.map .s) ++
  [(s2p "context_timestamp", PropValue.time c.timestamp)] ++
  optEntry (s2p "context_session_id") (c.session_id.map .s) ++
  optEntry (s2p "context_user_id") (c.user_id.map .s) ++
  dictCtxEntry (s2p "context_additional_metadata") c.additional_metadata

/-- Neo4j node representation of a memory (MemoryNode model). -/
structure MemoryNode where
  memory : Memory
  node_id : Option Int := none
  labels : List PyStr := []
deriving DecidableEq

/-- Model of MemoryNode.to_neo4j_properties from models.py. -/
def MemoryNode.to_neo4j_properties (node : MemoryNode) : PropMap :=
  [(s2p "id", match node.memory.id with | none => PropValue.null | some s => PropValue.s s),
   (s2p "type", PropValue.s node.memory.type.value),
   (s2p "title", PropValue.s node.memory.title),
   (s2p "content", PropValue.s node.memory.content),
   (s2p "tags", PropValue.list node.memory.tags),
   (s2p "importance", PropValue.q node.memory.importance),
   (s2p "confidence", PropValue.q node.memory.confidence),
   (s2p "usage_count", PropValue.n (node.memory.usage_count : Int)),
   (s2p "created_at", PropValue.time node.memory.created_at),
   (s2p "updated_at", PropValue.time node.memory.updated_at)]
  ++ optEntry (s2p "summary") (truthyStrOpt node.memory.summary)
  ++ optEntry (s2p "effectiveness") (node.memory.effectiveness.map .q)
  ++ optEntry (s2p "last_accessed") (node.memory.last_accessed.map .time)
  ++ (match node.memory.context with
      | none => []
      | some c => contextProps c)

/-- Encoding of a bare memory, as store_memory and update_memory perform it
via MemoryNode(memory=memory).to_neo4j_properties(). -/
def memoryToProps (m : Memory) : PropMap :=
  MemoryNode.to_neo4j_properties { memory := m }


/-- Decode an Optional[str] pydantic field from node_data.get(key). -/
def decStrOpt (k : PyStr) (d : PropMap) : Option (Option PyStr) :=
  match pget k d with
  | none => some none
  | some (.s v) => some (some v)
  | some .null => some none
  | some _ => none

/-- Decode a required str pydantic field from node_data.get(key). -/
def decStr (k : PyStr) (d : PropMap) : Option PyStr :=
  match pget k d with
  | some (.s v) => some v
  | _ => none

/-- Decode the tags list, node_data.get("tags", []). -/
def decTags (d : PropMap) : Option (List PyStr) :=
  match pget (s2p "tags") d with
  | none => some []
  | some (.list v) => some v
  | some _ => none

/-- Decode a float field with a default, node_data.get(key, default);
pydantic coerces ints to floats. -/
def decNum (k : PyStr) (dflt : Rat) (d : PropMap) : Option Rat :=
  match pget k d with
  | none => some dflt
  | some (.q v) => some v
  | some (.n i) => some (i : Rat)
  | some _ => none

/-- Decode an Optional[float] field, node_data.get(key). -/
def decNumOpt (k : PyStr) (d : PropMap) : Option (Option Rat) :=
  match pget k d with
  | none => some none
  | some .null => some none
  | some (.q v) => some (some v)
  | some (.n i) => some (some (i : Rat))
  | some _ => none

/-- Decode an int field with a default, node_data.get(key, default). -/
def decInt (k : PyStr) (dflt : Int) (d : PropMap) : Option Int :=
  match pget k d with
  | none => some dflt
  | some (.n i) => some i
  | some _ => none

/-- Decode a required timestamp, datetime.fromisoformat(node_data.get(key)):
fails unless the value is an isoformat string. -/
def decTime (k : PyStr) (d : PropMap) : Option Nat :=
  match pget k d with
  | some (.time t) => some t
  | _ => none

/-- Decode the optional last_accessed timestamp: the key is only parsed
when its value is truthy (if node_data.get("last_accessed"):). -/
def decTimeOpt (k : PyStr) (d : PropMap) : Option (Option Nat) :=
  match pget k d with
  | none => some none
  | some .null => some none
  | some (.time t) => some (some t)
  | some _ => none

/-- Bool test that a key carries the context prefix. -/
def hasCtxMark (k : PyStr) : Bool := (s2p "context_").isPrefixOf k

/-- Context extraction of _neo4j_to_memory: all properties whose key starts
with context_ and whose value is not None, with the prefix stripped. -/
def ctxPairs (d : PropMap) : PropMap :=
  (d.filter fun kv => hasCtxMark kv.1 && decide (kv.2 ≠ PropValue.null)).map
    fun kv => (kv.1.drop 8, kv.2)

/-- Decode a List[str] context field: pydantic rejects the str(value)
flattening of a non-empty list, so only a native list value succeeds. -/
def decCtxList (k : PyStr) (cd : PropMap) : Option (List PyStr) :=
  match pget k cd with
  | none => some []
  | some (.list v) => some v
  | some _ => none

/-- Decode the context object from the stripped context pairs; absent keys
fall back to the MemoryContext defaults, with the timestamp defaulting to
the decode instant (default_factory=datetime.utcnow). -/
def decCtx (now : Nat) (d : PropMap) : Option (Option MemoryContext) :=
  let cd := ctxPairs d
  if cd = [] then some none
  else do
    let pp ← decStrOpt (s2p "project_path") cd
    let fi ← decCtxList (s2p "files_involved") cd
    let la ← decCtxList (s2p "languages") cd
    let fw ← decCtxList (s2p "frameworks") cd
    let te ← decCtxList (s2p "technologies") cd
    let gc ← decStrOpt (s2p "git_commit") cd
    let gb ← decStrOpt (s2p "git_branch") cd
    let wd ← decStrOpt (s2p "working_directory") cd
    let ts ← (match pget (s2p "timestamp") cd with
              | none => some now
              | some (.time t) => some t
              | some _ => none)
    let si ← decStrOpt (s2p "session_id") cd
    let ui ← decStrOpt (s2p "user_id") cd
    let am ← (match pget (s2p "additional_metadata") cd with
              | none => some ([] : List (PyStr × PyStr))
              | some _ => none)
    some (some { project_path := pp, files_involved := fi, languages := la,
                 frameworks := fw, technologies := te, git_commit := gc,
                 git_branch := gb, working_directory := wd, timestamp := ts,
                 session_id := si, user_id := ui, additional_metadata := am })

/-- Model of MemoryDatabase._neo4j_to_memory from database.py: rebuild the
field dict, convert enum and timestamps, rebuild context, then run Memory
construction; any failure is caught and yields None. -/
def neo4j_to_memory (now : Nat) (d : PropMap) : Option Memory := do
  let idv ← decStrOpt (s2p "id") d
  let ty ← (match pget (s2p "type") d with
            | some (.s v) => MemoryType.ofValue? v
            | _ => none)
  let title ← decStr (s2p "title") d
  let content ← decStr (s2p "content") d
  let summary ← decStrOpt (s2p "summary") d
  let tags ← decTags d
  let importance ← decNum (s2p "importance") (ratHalf) d
  let confidence ← decNum (s2p "confidence") (ratFourFifths) d
  let eff ← decNumOpt (s2p "effectiveness") d
  let usage ← decInt (s2p "usage_count") 0 d
  let created ← decTime (s2p "created_at") d
  let updated ← decTime (s2p "updated_at") d
  let lacc ← decTimeOpt (s2p "last_accessed") d
  let ctx ← decCtx now d
  (Memory.mk? idv ty title content summary tags ctx importance confidence eff
    usage created updated lacc).toOption

/-! Graph state and the Cypher statements issued by database.py, modelled by
their documented semantics. -/

/-- A stored relationship edge.  The eid field is Neo4j edge identity,
distinguishing parallel edges; label is the structural relationship type
name interpolated into the CREATE statement. -/
structure Edge where
  eid : Nat
  src : PyStr
  dst : PyStr
  label : PyStr
  props : PropMap
deriving DecidableEq

/-- Graph database state: memory nodes keyed by their unique id property
(the schema constrains m.id to be unique and every write merges by id),
and relationship edges.  nextEid numbers freshly created edges. -/
structure Graph where
  nodes : List (PyStr × PropMap) := []
  edges : List Edge := []
  nextEid : Nat := 0
deriving DecidableEq

/-- Node lookup by id, the semantics of MATCH (m:Memory \x7bid: $id\x7d). -/
def getNode (g : Graph) (nid : PyStr) : Option PropMap :=
  (g.nodes.find? fun kv => decide (kv.1 = nid)).map Prod.snd

/-- Remove a key from a property mapping. -/
def perase (k : PyStr) (p : PropMap) : PropMap :=
  p.filter fun kv => decide (kv.1 ≠ k)

/-- Set a key in a property mapping, replacing in place or appending. -/
def pset (k : PyStr) (v : PropValue) (p : PropMap) : PropMap :=
  if (p.find? fun kv => decide (kv.1 = k)).isSome then
    p.map fun kv => if kv.1 = k then (k, v) else kv
  else p ++ [(k, v)]

/-- Semantics of SET m += $properties: null values remove the property,
any other value overwrites or adds it. -/
def applyProps (p : PropMap) (updates : PropMap) : PropMap :=
  updates.foldl
    (fun acc kv =>
      match kv.2 with
      | PropValue.null => perase kv.1 acc
      | v => pset kv.1 v acc)
    p

/-- Semantics of MERGE (m:Memory \x7bid: $id\x7d) SET m += $properties. -/
def mergeSetNode (g : Graph) (nid : PyStr) (props : PropMap) : Graph :=
  match getNode g nid with
  | some _ =>
    { g with nodes := g.nodes.map fun kv =>
        if kv.1 = nid then (nid, applyProps kv.2 props) else kv }
  | none =>
    { g with nodes := g.nodes ++ [(nid, applyProps [(s2p "id", PropValue.s nid)] props)] }

/-- Model of MemoryDatabase.store_memory: assign an id when the current one
is falsy, stamp updated_at, encode and upsert.  The result triple carries
the returned id, the new graph state and the mutated Memory argument. -/
def store_memory (g : Graph) (m : Memory) (genId : PyStr) (now : Nat) :
    Except PyStr PyStr × Graph × Memory :=
  let mid := match m.id with
             | none => genId
             | some s => if s = [] then genId else s
  let m2 := { m with id := some mid, updated_at := now }
  (Except.ok mid, mergeSetNode g mid (memoryToProps m2), m2)

/-- Model of MemoryDatabase.get_memory: single-node match by id, then
decode; absent node or failed decode give None. -/
def get_memory (g : Graph) (memory_id : PyStr) (now : Nat) : Option Memory :=
  match getNode g memory_id with
  | none => none
  | some props => neo4j_to_memory now props

/-- Relationship properties flattened for the CREATE statement: dict() of
the model (None values included) with isoformatted timestamps, plus the
generated id. -/
def relPropsToMap (rid : PyStr) (p : RelationshipProperties) : PropMap :=
  [(s2p "strength", PropValue.q p.strength),
   (s2p "confidence", PropValue.q p.confidence),
   (s2p "context", match p.context with | none => PropValue.null | some s => PropValue.s s),
   (s2p "evidence_count", PropValue.n (p.evidence_count : Int)),
   (s2p "success_rate", match p.success_rate with | none => PropValue.null | some x => PropValue.q x),
   (s2p "created_at", PropValue.time p.created_at),
   (s2p "last_validated", PropValue.time p.last_validated),
   (s2p "validation_count", PropValue.n (p.validation_count : Int)),
   (s2p "counter_evidence_count", PropValue.n (p.counter_evidence_count : Int)),
   (s2p "id", PropValue.s rid)]

/-- Null-valued parameters are not stored as properties by CREATE. -/
def stripNulls (p : PropMap) : PropMap :=
  p.filter fun kv => decide (kv.2 ≠ PropValue.null)

/-- Model of MemoryDatabase.create_relationship: MATCH both endpoints by
id, CREATE the typed edge, return r.id; when either endpoint match fails
the statement yields zero rows, no edge is created, and the facade raises
RuntimeError (modelled as the error result).  relId is the generated uuid;
now stamps the default RelationshipProperties timestamps. -/
def create_relationship (g : Graph) (from_memory_id to_memory_id : PyStr)
    (relationship_type : RelationshipType)
    (properties : Option RelationshipProperties) (relId : PyStr) (now : Nat) :
    Except PyStr PyStr × Graph :=
  let props := match properties with
               | some p => p
               | none => { created_at := now, last_validated := now }
  let pm := stripNulls (relPropsToMap relId props)
  match getNode g from_memory_id, getNode g to_memory_id with
  | some _, some _ =>
    (Except.ok relId,
     { g with
        edges := g.edges ++
          [{ eid := g.nextEid, src := from_memory_id, dst := to_memory_id,
             label := relationship_type.value, props := pm }],
        nextEid := g.nextEid + 1 })
  | _, _ => (Except.error (s2p "Failed to create relationship"), g)


/-- One WHERE condition contributed by a populated search filter. -/
inductive Cond
  | textSearch (q : PyStr)
  | typeIn (ts : List PyStr)
  | tagsAny (tags : List PyStr)
  | projectEq (p : PyStr)
  | impGE (x : Rat)
  | confGE (x : Rat)
  | createdAfter (t : Nat)
  | createdBefore (t : Nat)
deriving DecidableEq

/-- Model of the condition-building half of search_memories: each populated
filter appends exactly one condition, in source order; truthiness guards
match the Python if statements. -/
def buildConditions (q : SearchQuery) : List Cond :=
  (match q.query with
   | some s => if s = [] then [] else [Cond.textSearch s]
   | none => []) ++
  (if q.memory_types = [] then [] else [Cond.typeIn (q.memory_types.map MemoryType.value)]) ++
  (if q.tags = [] then [] else [Cond.tagsAny q.tags]) ++
  (match q.project_path with
   | some s => if s = [] then [] else [Cond.projectEq s]
   | none => []) ++
  (match q.min_importance with | some x => [Cond.impGE x] | none => []) ++
  (match q.min_confidence with | some x => [Cond.confGE x] | none => []) ++
  (match q.created_after with | some t => [Cond.createdAfter t] | none => []) ++
  (match q.created_before with | some t => [Cond.createdBefore t] | none => [])

/-- Substring test, the semantics of the Cypher CONTAINS operator. -/
def containsSub (needle : PyStr) (hay : PyStr) : Bool :=
  match hay with
  | [] => needle.isPrefixOf []
  | _ :: t => needle.isPrefixOf hay || containsSub needle t

/-- Cypher evaluation of one condition against a node property map; a null
operand makes a comparison non-true, so such rows are filtered out. -/
def evalCond (p : PropMap) : Cond → Bool
  | .textSearch q =>
    (match pget (s2p "title") p with | some (.s v) => containsSub q v | _ => false) ||
    (match pget (s2p "content") p with | some (.s v) => containsSub q v | _ => false) ||
    (match pget (s2p "summary") p with | some (.s v) => containsSub q v | _ => false)
  | .typeIn ts =>
    match pget (s2p "type") p with | some (.s v) => decide (v ∈ ts) | _ => false
  | .tagsAny tags =>
    match pget (s2p "tags") p with
    | some (.list l) => tags.any fun t => decide (t ∈ l)
    | _ => false
  | .projectEq s =>
    match pget (s2p "context_project_path") p with
    | some (.s v) => decide (v = s)
    | _ => false
  | .impGE x =>
    match pget (s2p "importance") p with
    | some (.q v) => decide (x ≤ v)
    | some (.n i) => decide (x ≤ (i : Rat))
    | _ => false
  | .confGE x =>
    match pget (s2p "confidence") p with
    | some (.q v) => decide (x ≤ v)
    | some (.n i) => decide (x ≤ (i : Rat))
    | _ => false
  | .createdAfter t =>
    match pget (s2p "created_at") p with
    | some (.time u) => decide (t ≤ u)
    | _ => false
  | .createdBefore t =>
    match pget (s2p "created_at") p with
    | some (.time u) => decide (u ≤ t)
    | _ => false

/-- The WHERE clause: all conditions joined with AND; with no conditions it
degenerates to true. -/
def matchesWhere (q : SearchQuery) (p : PropMap) : Bool :=
  (buildConditions q).all (evalCond p)

/-- Importance sort key of a node property map; Cypher sorts null largest,
hence first under DESC. -/
def nodeImpKey (p : PropMap) : WithTop Rat :=
  match pget (s2p "importance") p with
  | some (.q v) => (v : WithTop Rat)
  | some (.n i) => ((i : Rat) : WithTop Rat)
  | _ => ⊤

/-- Creation-time sort key of a node property map. -/
def nodeCreatedKey (p : PropMap) : WithTop Nat :=
  match pget (s2p "created_at") p with
  | some (.time t) => (t : WithTop Nat)
  | _ => ⊤

/-- ORDER BY m.importance DESC, m.created_at DESC as a relation: a comes
no later than b when the lexicographic (importance, created_at) key of a
is at least that of b. -/
def searchLE (a b : PyStr × PropMap) : Prop :=
  toLex (nodeImpKey b.2, nodeCreatedKey b.2) ≤ toLex (nodeImpKey a.2, nodeCreatedKey a.2)

instance : DecidableRel searchLE := fun _ _ =>
  inferInstanceAs (Decidable (_ ≤ _))

/-- Model of MemoryDatabase.search_memories: filter all memory nodes by the
WHERE clause, order, cap at the query limit, decode row by row skipping
failures. -/
def search_memories (g : Graph) (q : SearchQuery) (now : Nat) : List Memory :=
  ((((g.nodes.filter fun kv => matchesWhere q kv.2).insertionSort searchLE).take q.limit).filterMap
    fun kv => neo4j_to_memory now kv.2)


/-- Relationship type filter of the traversal pattern: with a falsy type
list every label matches, otherwise the label must be one of the
alternation members. -/
def typeOk (ts : List RelationshipType) (e : Edge) : Bool :=
  if ts = [] then true else decide (e.label ∈ ts.map RelationshipType.value)

/-- Undirected adjacency: edges incident to a node (the pattern
(start)-[r]-(related) has no direction), with the type filter applied,
paired with the far endpoint. -/
def adjEdges (g : Graph) (ts : List RelationshipType) (nid : PyStr) :
    List (Edge × PyStr) :=
  g.edges.filterMap fun e =>
    if typeOk ts e then
      if e.src = nid then some (e, e.dst)
      else if e.dst = nid then some (e, e.src)
      else none
    else none

/-- Endpoints of all continuation paths of length 1..fuel from cur that
avoid the already-used edges, honouring Cypher relationship uniqueness
within a path. -/
def reachEnds (g : Graph) (ts : List RelationshipType) :
    Nat → PyStr → List Nat → List PyStr
  | 0, _, _ => []
  | fuel + 1, cur, used =>
    (adjEdges g ts cur).flatMap fun p =>
      if p.1.eid ∈ used then []
      else p.2 :: reachEnds g ts fuel p.2 (p.1.eid :: used)

/-- All rows (first-hop relationship, related node id) produced by the
variable-length pattern (start)-[r*1..maxDepth]-(related): r[0] is the
first edge of each path. -/
def pathRows (g : Graph) (ts : List RelationshipType) (maxDepth : Nat)
    (start : PyStr) : List (Edge × PyStr) :=
  match maxDepth with
  | 0 => []
  | d + 1 =>
    (adjEdges g ts start).flatMap fun p =>
      (p.2 :: reachEnds g ts d p.2 [p.1.eid]).map fun endId => (p.1, endId)

/-- Strength sort key of an edge (r[0].strength). -/
def edgeStrengthKey (e : Edge) : WithTop Rat :=
  match pget (s2p "strength") e.props with
  | some (.q v) => (v : WithTop Rat)
  | some (.n i) => ((i : Rat) : WithTop Rat)
  | _ => ⊤

/-- Importance sort key of the related node, by node id. -/
def relNodeImpKey (g : Graph) (nid : PyStr) : WithTop Rat :=
  match getNode g nid with
  | some p => nodeImpKey p
  | none => ⊤

/-- ORDER BY r[0].strength DESC, related.importance DESC as a relation on
rows. -/
def rowLE (g : Graph) (a b : Edge × PyStr) : Prop :=
  toLex (edgeStrengthKey b.1, relNodeImpKey g b.2) ≤
    toLex (edgeStrengthKey a.1, relNodeImpKey g a.2)

instance (g : Graph) : DecidableRel (rowLE g) := fun _ _ =>
  inferInstanceAs (Decidable (_ ≤ _))

/-- The ordered row list of the traversal query: exclude the start node,
apply RETURN DISTINCT on the (related, r[0]) pair, order, LIMIT 20. -/
def relatedRows (g : Graph) (ts : List RelationshipType) (maxDepth : Nat)
    (start : PyStr) : List (Edge × PyStr) :=
  ((((pathRows g ts maxDepth start).filter fun row => decide (row.2 ≠ start)).dedup).insertionSort
    (rowLE g)).take 20

/-- Turn an optional value into an Except with the given error. -/
def ofOpt (e : PyStr) : Option α → Except PyStr α
  | none => Except.error e
  | some a => Except.ok a

/-- Model of the relationship synthesis in get_related_memories: type,
strength and confidence are read from the first-hop edge data with
defaults RELATED_TO, 0.5 and 0.8, the endpoints are the queried id and
the decoded related memory id, and pydantic validation of the constructed
Relationship can raise (an error aborts the whole call, it is not
caught). -/
def synthRel (memory_id : PyStr) (m : Memory) (relProps : PropMap)
    (now : Nat) : Except PyStr Relationship := do
  let tyv ← ofOpt (s2p "type")
    (match pget (s2p "type") relProps with
     | none => some (s2p "RELATED_TO")
     | some (.s v) => some v
     | some _ => none)
  let ty ← ofOpt (s2p "type") (RelationshipType.ofValue? tyv)
  let st ← ofOpt (s2p "strength")
    (match pget (s2p "strength") relProps with
     | none => some (ratHalf)
     | some (.q v) => some v
     | some (.n i) => some ((i : Rat))
     | some _ => none)
  let cf ← ofOpt (s2p "confidence")
    (match pget (s2p "confidence") relProps with
     | none => some (ratFourFifths)
     | some (.q v) => some v
     | some (.n i) => some ((i : Rat))
     | some _ => none)
  let props ← RelationshipProperties.mkSynth? st cf now
  let tid ← ofOpt (s2p "to_memory_id") m.id
  Relationship.mk? none memory_id tid ty props none false

/-- The result-building loop of get_related_memories: decode each related
node, skipping rows whose decode fails, and synthesize the simplified
Relationship for the rest; a synthesis failure propagates. -/
def buildPairs (g : Graph) (memory_id : PyStr) (now : Nat) :
    List (Edge × PyStr) → Except PyStr (List (Memory × Relationship))
  | [] => Except.ok []
  | row :: rest =>
    match (match getNode g row.2 with
           | none => none
           | some p => neo4j_to_memory now p) with
    | none => buildPairs g memory_id now rest
    | some m => do
      let r ← synthRel memory_id m row.1.props now
      let tl ← buildPairs g memory_id now rest
      Except.ok ((m, r) :: tl)

/-- Model of MemoryDatabase.get_related_memories: bounded undirected
variable-length traversal from the node with the given id, excluding the
start node, DISTINCT rows, ordered by first-hop strength then related
importance (descending), capped at 20, then decoded into pairs. -/
def get_related_memories (g : Graph) (memory_id : PyStr)
    (ts : List RelationshipType) (maxDepth : Nat) (now : Nat) :
    Except PyStr (List (Memory × Relationship)) :=
  match getNode g memory_id with
  | none => Except.ok []
  | some _ => buildPairs g memory_id now (relatedRows g ts maxDepth memory_id)

/-- Sample memory used by concrete evaluations: the stored-scenario record
from the specification. -/
def sampleMemory : Memory :=
  { type := .problem, title := s2p "NPE on null user",
    content := s2p "guard the user lookup against None", created_at := 0,
    updated_at := 0 }

/-- Decidable equality for Except results, used to evaluate constructor
outcomes on concrete inputs. -/
instance {ε α : Type} [DecidableEq ε] [DecidableEq α] : DecidableEq (Except ε α) := fun a b =>
  match a, b with
  | .ok x, .ok y =>
    if h : x = y then .isTrue (by rw [h]) else .isFalse (by intro hc; cases hc; exact h rfl)
  | .ok _, .error _ => .isFalse (by intro hc; cases hc)
  | .error _, .ok _ => .isFalse (by intro hc; cases hc)
  | .error e, .error f =>
    if h : e = f then .isTrue (by rw [h]) else .isFalse (by intro hc; cases hc; exact h rfl)


/-- Context object whose list- and map-valued fields are all empty. -/
def ctxEmptyLists : MemoryContext := { timestamp := 7 }

/-- Memory carrying the empty-lists context. -/
def memoryWithEmptyCtx : Memory :=
  { type := .task, title := s2p "t", content := s2p "c",
    context := some ctxEmptyLists, created_at := 0, updated_at := 0 }


/-- The freshly constructed scenario memory (type problem, defaulted
fields), constructed at instant t0, so created_at = updated_at = t0 and
usage_count = 0. -/
def freshProblem (t0 : Nat) : Memory :=
  { type := .problem, title := s2p "NPE on null user",
    content := s2p "guard the user lookup against None",
    created_at := t0, updated_at := t0 }

/-- The rational one tenth (the float 0.1). -/
def ratTenth : Rat := ⟨1, 10, by decide, by simp⟩

/-- Search query populated only with a minimum-effectiveness threshold. -/
def qEff : SearchQuery := { min_effectiveness := some ratFourFifths }

/-- A memory whose effectiveness is far below that threshold. -/
def memEff : Memory :=
  { type := .general, title := s2p "e", content := s2p "c",
    effectiveness := some ratTenth, created_at := 0, updated_at := 0 }

/-- Number of populated filter fields among the eight the query builder
reads, with the same truthiness tests the source uses. -/
def condCount (q : SearchQuery) : Nat :=
  (match q.query with | some s => if s = [] then 0 else 1 | none => 0) +
  (if q.memory_types = [] then 0 else 1) +
  (if q.tags = [] then 0 else 1) +
  (match q.project_path with | some s => if s = [] then 0 else 1 | none => 0) +
  (match q.min_importance with | some _ => 1 | none => 0) +
  (match q.min_confidence with | some _ => 1 | none => 0) +
  (match q.created_after with | some _ => 1 | none => 0) +
  (match q.created_before with | some _ => 1 | none => 0)

/-- Two small memories used to build a concrete related-memories graph. -/
def memA : Memory :=
  { type := .problem, title := s2p "a", content := s2p "c",
    created_at := 0, updated_at := 0 }

/-- Second stored memory of the concrete graph. -/
def memB : Memory :=
  { type := .solution, title := s2p "b", content := s2p "c",
    created_at := 0, updated_at := 0 }

/-- Concrete graph: memories A and B, and one SOLVES edge stored from B to
A, i.e. pointing into the queried node. -/
def gRel : Graph :=
  (create_relationship
    ((store_memory ((store_memory {} memA (s2p "A") 0).2.1) memB (s2p "B") 0).2.1)
    (s2p "B") (s2p "A") .SOLVES none (s2p "r1") 0).2

/-- The stored form of memB. -/
def memBStored : Memory := { memB with id := some (s2p "B"), updated_at := 0 }

/-- The relationship get_related_memories synthesizes for the B-to-A edge
when A is queried: it points from A to B even though the stored edge
points from B to A, with type defaulted to RELATED_TO because edge
property maps carry no type key. -/
def relSynth : Relationship :=
  { from_memory_id := s2p "A", to_memory_id := s2p "B",
    type := .RELATED_TO,
    properties :=
      { strength := ratHalf, confidence := ratFourFifths,
        created_at := 0, last_validated := 0 } }


/-- Undirected walks of a given length in the graph (edges may repeat):
the reachability notion bounding what the traversal can return. -/
inductive Walk (g : Graph) : PyStr → PyStr → Nat → Prop
  | refl (a : PyStr) : Walk g a a 0
  | step {a b c : PyStr} {n : Nat} (e : Edge) :
      e ∈ g.edges → ((e.src = a ∧ e.dst = b) ∨ (e.src = b ∧ e.dst = a)) →
      Walk g b c n → Walk g a c (n + 1)

/-- Well-formedness the store maintains: every node's property map carries
its key as the id property (store_memory always writes id). -/
def GraphWF (g : Graph) : Prop :=
  ∀ kv ∈ g.nodes, pget (s2p "id") kv.2 = some (PropValue.s kv.1)

instance (g : Graph) : IsTotal (Edge × PyStr) (rowLE g) :=
  ⟨fun a b => by
    unfold rowLE
    exact (le_total _ _).symm⟩

instance (g : Graph) : IsTrans (Edge × PyStr) (rowLE g) :=
  ⟨fun a b c hab hbc => by
    unfold rowLE at hab hbc ⊢
    exact le_trans hbc hab⟩

/-- Concrete graph with two parallel edges between A and B. -/
def gPar : Graph :=
  (create_relationship
    ((create_relationship
      ((store_memory ((store_memory {} memA (s2p "A") 0).2.1) memB (s2p "B") 0).2.1)
      (s2p "A") (s2p "B") .SOLVES none (s2p "r1") 0).2)
    (s2p "A") (s2p "B") .RELATED_TO none (s2p "r2") 0).2

/-- The stripped context pairs an encoded all-lists-empty context yields. -/
def ctxEnc (pp gc gb wd : Option PyStr) (ts : Nat) (si ui : Option PyStr) : PropMap :=
  optEntry (s2p "project_path") (pp.map PropValue.s) ++
  optEntry (s2p "git_commit") (gc.map PropValue.s) ++
  optEntry (s2p "git_branch") (gb.map PropValue.s) ++
  optEntry (s2p "working_directory") (wd.map PropValue.s) ++
  [(s2p "timestamp", PropValue.time ts)] ++
  optEntry (s2p "session_id") (si.map PropValue.s) ++
  optEntry (s2p "user_id") (ui.map PropValue.s)

/-- Validity conditions under which the encode-decode round trip can
reproduce a Memory: the fields are construction-normalized and the
context, when present, carries no list or map data (the documented lossy
part of the codec). -/
def Memory.RoundTrippable (m : Memory) : Prop :=
  1 ≤ m.title.length ∧ m.title.length ≤ 200 ∧ pystrip m.title = m.title ∧
  1 ≤ m.content.length ∧ pystrip m.content = m.content ∧
  (∀ s, m.summary = some s → s ≠ [] ∧ s.length ≤ 500) ∧
  validate_tags m.tags = m.tags ∧
  0 ≤ m.importance ∧ m.importance ≤ 1 ∧
  0 ≤ m.confidence ∧ m.confidence ≤ 1 ∧
  (∀ x, m.effectiveness = some x → 0 ≤ x ∧ x ≤ 1) ∧
  (∀ c, m.context = some c → c.files_involved = [] ∧ c.languages = [] ∧
    c.frameworks = [] ∧ c.technologies = [] ∧ c.additional_metadata = [])

/-- A valid memory whose context carries list data. -/
def memLossy : Memory :=
  { type := .task, title := s2p "t", content := s2p "c",
    context := some { timestamp := 3, files_involved := [s2p "a.py"] },
    created_at := 0, updated_at := 0 }

/-- A concrete round-trippable memory exercising the optional fields and a
scalar-only context. -/
def memRT : Memory :=
  { id := some (s2p "M"), type := .code_pattern, title := s2p "T",
    content := s2p "C", summary := some (s2p "S"), tags := [s2p "foo"],
    context := some
      { project_path := some (s2p "/repo"), timestamp := 4,
        session_id := some (s2p "sess") },
    importance := ratHalf, confidence := ratFourFifths,
    effectiveness := some ratHalf, usage_count := 2, created_at := 5,
    updated_at := 6, last_accessed := some 7 }

/-! Theorems: helper lemmas, claim theorems, counterexamples and witnesses. -/


theorem dropWhile_self (p : Char → Bool) (l : PyStr) :
    (l.dropWhile p).dropWhile p = l.dropWhile p := by
  induction l with
  | nil => rfl
  | cons a t ih =>
    by_cases h : p a
    · simpa [List.dropWhile_cons, h] using ih
    · simp [List.dropWhile_cons, h]

theorem head_dropWhile_false {p : Char → Bool} {l t : PyStr} {a : Char}
    (h : l.dropWhile p = a :: t) : p a = false := by
  induction l with
  | nil => simp at h
  | cons b r ih =>
    by_cases hb : p b
    · exact ih (by simpa [List.dropWhile_cons, hb] using h)
    · rw [List.dropWhile_cons] at h
      simp only [hb, if_neg] at h
      cases h
      simpa using hb

theorem dropWhile_eq_self_of_head {p : Char → Bool} {a : Char} (t : PyStr)
    (h : p a = false) : (a :: t).dropWhile p = a :: t := by
  simp [List.dropWhile_cons, h]

/-- The trailing-strip step produces a prefix of its input. -/
theorem revdrop_append (p : Char → Bool) (l : PyStr) :
    ∃ s, (l.reverse.dropWhile p).reverse ++ s = l := by
  refine ⟨(l.reverse.takeWhile p).reverse, ?_⟩
  rw [← List.reverse_append, List.takeWhile_append_dropWhile, List.reverse_reverse]

theorem pystrip_idem (l : PyStr) : pystrip (pystrip l) = pystrip l := by
  unfold pystrip
  set A := l.dropWhile pyws with hA
  -- the front of the stripped list is already clean
  have hfront : ((A.reverse.dropWhile pyws).reverse).dropWhile pyws
      = (A.reverse.dropWhile pyws).reverse := by
    obtain ⟨s, hs⟩ := revdrop_append pyws A
    cases hB : (A.reverse.dropWhile pyws).reverse with
    | nil => rfl
    | cons b t =>
      have hmemA : A = b :: (t ++ s) := by
        rw [← hs, hB]; simp
      have hbfalse : pyws b = false := by
        have : l.dropWhile pyws = b :: (t ++ s) := by rw [← hA, hmemA]
        exact head_dropWhile_false this
      exact dropWhile_eq_self_of_head t hbfalse
  rw [hfront, List.reverse_reverse, dropWhile_self]

theorem char_toNat_ofNat {n : Nat} (h : n.isValidChar) : (Char.ofNat n).toNat = n := by
  rw [Char.ofNat, dif_pos h]
  rfl

theorem char_toNat_inj {c d : Char} (h : c.toNat = d.toNat) : c = d := by
  have h2 := congrArg Char.ofNat h
  rwa [Char.ofNat_toNat, Char.ofNat_toNat] at h2

theorem pyws_iff (c : Char) :
    pyws c = true ↔ (c.toNat = 32 ∨ c.toNat = 9 ∨ c.toNat = 13 ∨ c.toNat = 10) := by
  unfold pyws Char.isWhitespace
  simp only [Bool.or_eq_true, decide_eq_true_eq]
  constructor
  · rintro (((rfl | rfl) | rfl) | rfl) <;> decide
  · rintro (h | h | h | h)
    · exact Or.inl (Or.inl (Or.inl (@char_toNat_inj c ' ' (by rw [h]; try decide))))
    · exact Or.inl (Or.inl (Or.inr (@char_toNat_inj c '\t' (by rw [h]; try decide))))
    · exact Or.inl (Or.inr (@char_toNat_inj c '\r' (by rw [h]; try decide)))
    · exact Or.inr (@char_toNat_inj c '\n' (by rw [h]; try decide))

theorem lower_toNat (c : Char) :
    (Char.toLower c).toNat =
      if c.toNat ≥ 65 ∧ c.toNat ≤ 90 then c.toNat + 32 else c.toNat := by
  unfold Char.toLower
  by_cases h : c.toNat ≥ 65 ∧ c.toNat ≤ 90
  · rw [if_pos h, if_pos h, char_toNat_ofNat (Or.inl (by omega))]
  · rw [if_neg h, if_neg h]

theorem toLower_idem (c : Char) : Char.toLower (Char.toLower c) = Char.toLower c := by
  by_cases h : c.toNat ≥ 65 ∧ c.toNat ≤ 90
  · apply char_toNat_inj
    have hc := lower_toNat c
    rw [if_pos h] at hc
    rw [lower_toNat (Char.toLower c), hc, if_neg (by omega)]
  · have hfix : Char.toLower c = c := by
      simp [Char.toLower, h]
    simp [hfix]

theorem pyws_toLower (c : Char) : pyws (Char.toLower c) = pyws c := by
  by_cases h : c.toNat ≥ 65 ∧ c.toNat ≤ 90
  · have hc := lower_toNat c
    rw [if_pos h] at hc
    have h1 : pyws (Char.toLower c) = false := by
      rw [Bool.eq_false_iff]
      intro hb
      have := (pyws_iff _).mp hb
      omega
    have h2 : pyws c = false := by
      rw [Bool.eq_false_iff]
      intro hb
      have := (pyws_iff _).mp hb
      omega
    rw [h1, h2]
  · have hfix : Char.toLower c = c := by
      simp [Char.toLower, h]
    rw [hfix]

theorem dropWhile_map_toLower (l : PyStr) :
    (l.map Char.toLower).dropWhile pyws = (l.dropWhile pyws).map Char.toLower := by
  induction l with
  | nil => rfl
  | cons a t ih =>
    by_cases h : pyws a
    · simp [List.dropWhile_cons, pyws_toLower, h, ih]
    · simp [List.dropWhile_cons, pyws_toLower, h]

theorem pystrip_pylower_comm (l : PyStr) :
    pystrip (pylower l) = pylower (pystrip l) := by
  unfold pystrip pylower
  rw [dropWhile_map_toLower, ← List.map_reverse, dropWhile_map_toLower, List.map_reverse]

theorem pylower_idem (l : PyStr) : pylower (pylower l) = pylower l := by
  unfold pylower
  rw [List.map_map]
  exact List.map_congr_left fun c _ => toLower_idem c

theorem pystrip_pylower_ne_nil {t : PyStr} (h : pystrip t ≠ []) :
    pystrip (pylower t) ≠ [] := by
  rw [pystrip_pylower_comm]
  unfold pylower
  simpa using h

theorem validate_tags_idem (v : List PyStr) :
    validate_tags (validate_tags v) = validate_tags v := by
  induction v with
  | nil => rfl
  | cons t ts ih =>
    by_cases h : pystrip t = []
    · simp [validate_tags, h, ih]
    · have hne : pystrip (pylower t) ≠ [] := pystrip_pylower_ne_nil h
      have hfix : pystrip (pystrip (pylower t)) = pystrip (pylower t) :=
        pystrip_idem _
      have hmapfix : pystrip (pylower (pystrip (pylower t))) = pystrip (pylower t) := by
        rw [← pystrip_pylower_comm (pylower t), pystrip_idem, pylower_idem]
      have hcondfix : pystrip (pystrip (pylower t)) ≠ [] := by
        rw [hfix]; exact hne
      simp only [validate_tags, h, if_neg, ih]
      simp [validate_tags, hcondfix, hmapfix, ih]


@[simp]
theorem pget_append (k : PyStr) (l1 l2 : PropMap) :
    pget k (l1 ++ l2) = (pget k l1).or (pget k l2) := by
  induction l1 with
  | nil => simp [pget]
  | cons kv rest ih =>
    by_cases h : kv.1 = k
    · simp [pget, h]
    · simp [pget, h, ih]

@[simp]
theorem pget_optEntry (k k2 : PyStr) (o : Option PropValue) :
    pget k (optEntry k2 o) = if k2 = k then o else none := by
  cases o with
  | none => simp [optEntry, pget]
  | some v => simp [optEntry, pget]

@[simp]
theorem pget_listCtxEntry (k k2 : PyStr) (l : List PyStr) :
    pget k (listCtxEntry k2 l) =
      if k2 = k then some (if l = [] then PropValue.null else PropValue.s (pyReprStrList l))
      else none := by
  simp [listCtxEntry, pget]

@[simp]
theorem pget_dictCtxEntry (k k2 : PyStr) (d : List (PyStr × PyStr)) :
    pget k (dictCtxEntry k2 d) =
      if k2 = k then some (if d = [] then PropValue.null else PropValue.s (pyReprDict d))
      else none := by
  simp [dictCtxEntry, pget]


/-- C7: tag normalization (the Memory tags validator) is idempotent: for
every list of tag strings, normalizing the normalized list yields the same
list; in particular normalizing the list of "  Foo ", "bar" and "" yields
the list of "foo" and "bar". -/
theorem C7_tag_normalization_idempotent :
    (∀ v : List PyStr, validate_tags (validate_tags v) = validate_tags v) ∧
    validate_tags [s2p "  Foo ", s2p "bar", s2p ""] = [s2p "foo", s2p "bar"] :=
  ⟨validate_tags_idem, by decide⟩


/-- C9: store_memory mutates its Memory argument in place: with no prior
id the argument comes back with id set to the generated id and updated_at
set to the store time, while every other field of the argument is
unchanged. -/
theorem C9_store_memory_mutates_argument (g : Graph) (m : Memory)
    (genId : PyStr) (now : Nat) (h : m.id = none) :
    ((store_memory g m genId now).2.2.id = some genId) ∧
    ((store_memory g m genId now).2.2.updated_at = now) ∧
    ((store_memory g m genId now).2.2.type = m.type) ∧
    ((store_memory g m genId now).2.2.title = m.title) ∧
    ((store_memory g m genId now).2.2.content = m.content) ∧
    ((store_memory g m genId now).2.2.summary = m.summary) ∧
    ((store_memory g m genId now).2.2.tags = m.tags) ∧
    ((store_memory g m genId now).2.2.context = m.context) ∧
    ((store_memory g m genId now).2.2.importance = m.importance) ∧
    ((store_memory g m genId now).2.2.confidence = m.confidence) ∧
    ((store_memory g m genId now).2.2.effectiveness = m.effectiveness) ∧
    ((store_memory g m genId now).2.2.usage_count = m.usage_count) ∧
    ((store_memory g m genId now).2.2.created_at = m.created_at) ∧
    ((store_memory g m genId now).2.2.last_accessed = m.last_accessed) := by
  simp [store_memory, h]

/-- Witness for C9 at a concrete memory, graph and store instant. -/
theorem C9_store_memory_mutates_argument_witness :
    sampleMemory.id = none ∧
    ((store_memory {} sampleMemory (s2p "m-1") 5).2.2.id = some (s2p "m-1")) ∧
    ((store_memory {} sampleMemory (s2p "m-1") 5).2.2.updated_at = 5) ∧
    ((store_memory {} sampleMemory (s2p "m-1") 5).2.2.type = sampleMemory.type) ∧
    ((store_memory {} sampleMemory (s2p "m-1") 5).2.2.title = sampleMemory.title) ∧
    ((store_memory {} sampleMemory (s2p "m-1") 5).2.2.content = sampleMemory.content) ∧
    ((store_memory {} sampleMemory (s2p "m-1") 5).2.2.summary = sampleMemory.summary) ∧
    ((store_memory {} sampleMemory (s2p "m-1") 5).2.2.tags = sampleMemory.tags) ∧
    ((store_memory {} sampleMemory (s2p "m-1") 5).2.2.context = sampleMemory.context) ∧
    ((store_memory {} sampleMemory (s2p "m-1") 5).2.2.importance = sampleMemory.importance) ∧
    ((store_memory {} sampleMemory (s2p "m-1") 5).2.2.confidence = sampleMemory.confidence) ∧
    ((store_memory {} sampleMemory (s2p "m-1") 5).2.2.effectiveness = sampleMemory.effectiveness) ∧
    ((store_memory {} sampleMemory (s2p "m-1") 5).2.2.usage_count = sampleMemory.usage_count) ∧
    ((store_memory {} sampleMemory (s2p "m-1") 5).2.2.created_at = sampleMemory.created_at) ∧
    ((store_memory {} sampleMemory (s2p "m-1") 5).2.2.last_accessed = sampleMemory.last_accessed) :=
  ⟨rfl, C9_store_memory_mutates_argument {} sampleMemory (s2p "m-1") 5 rfl⟩


/-- Counterexample to C3: a whitespace-only title (one space, hence empty
after trimming) is accepted by Memory construction, because the pydantic
min_length constraint sees the raw value while the strip validator runs
afterwards; the constructed Memory has an empty title. -/
theorem C3_whitespace_title_accepted :
    Memory.mk? none .problem (s2p " ") (s2p "x") none [] none (ratHalf)
      (ratFourFifths) none 0 0 0 none =
    Except.ok
      { id := none, type := .problem, title := [], content := s2p "x",
        summary := none, tags := [], context := none,
        importance := ratHalf, confidence := ratFourFifths,
        effectiveness := none, usage_count := 0, created_at := 0,
        updated_at := 0, last_accessed := none } := by
  decide

/-- C3 amended: construction of Memory fails with a validation error naming
the field when a required string field is empty (or, for title, longer
than 200 characters); whitespace-only title/content are accepted, merely
stripped, so a constructed Memory carries trimmed title and content whose
raw inputs were length-bounded but which may themselves be empty.
Relationship construction rejects empty and whitespace-only endpoint ids
with an error naming the field and otherwise stores trimmed non-empty
ids. -/
theorem C3_required_string_validation (id : Option PyStr) (type : MemoryType)
    (title content : PyStr) (summary : Option PyStr) (tags : List PyStr)
    (ctx : Option MemoryContext) (imp conf : Rat) (eff : Option Rat)
    (uc : Int) (ca ua : Nat) (la : Option Nat) (rid : Option PyStr)
    (fromId toId : PyStr) (rty : RelationshipType)
    (rprops : RelationshipProperties) (desc : Option PyStr) (bd : Bool) :
    (title = [] →
      Memory.mk? id type title content summary tags ctx imp conf eff uc ca ua la
        = Except.error (s2p "title")) ∧
    (200 < title.length →
      Memory.mk? id type title content summary tags ctx imp conf eff uc ca ua la
        = Except.error (s2p "title")) ∧
    (1 ≤ title.length → title.length ≤ 200 → content = [] →
      Memory.mk? id type title content summary tags ctx imp conf eff uc ca ua la
        = Except.error (s2p "content")) ∧
    (∀ m, Memory.mk? id type title content summary tags ctx imp conf eff uc ca ua la
        = Except.ok m →
      m.title = pystrip title ∧ m.content = pystrip content ∧
      1 ≤ title.length ∧ title.length ≤ 200 ∧ 1 ≤ content.length) ∧
    (pystrip fromId = [] →
      Relationship.mk? rid fromId toId rty rprops desc bd
        = Except.error (s2p "from_memory_id")) ∧
    (pystrip fromId ≠ [] → pystrip toId = [] →
      Relationship.mk? rid fromId toId rty rprops desc bd
        = Except.error (s2p "to_memory_id")) ∧
    (∀ r, Relationship.mk? rid fromId toId rty rprops desc bd = Except.ok r →
      r.from_memory_id = pystrip fromId ∧ r.from_memory_id ≠ [] ∧
      r.to_memory_id = pystrip toId ∧ r.to_memory_id ≠ []) := by
  refine ⟨?_, ?_, ?_, ?_, ?_, ?_, ?_⟩
  · intro h
    subst h
    simp [Memory.mk?]
  · intro h
    have hcond : ¬(1 ≤ title.length ∧ title.length ≤ 200) := by omega
    simp [Memory.mk?, hcond]
  · intro h1 h2 h3
    subst h3
    have hcond : (1 ≤ title.length ∧ title.length ≤ 200) := ⟨h1, h2⟩
    simp [Memory.mk?, hcond]
  · intro m hm
    unfold Memory.mk? at hm
    split_ifs at hm with h1 h2 h3 h4 h5 h6 h7
    cases hm
    refine ⟨rfl, rfl, ?_, ?_, ?_⟩ <;> omega
  · intro h
    simp [Relationship.mk?, h]
  · intro h1 h2
    simp [Relationship.mk?, h1, h2]
  · intro r hr
    unfold Relationship.mk? at hr
    split_ifs at hr with h1 h2
    cases hr
    exact ⟨rfl, h1, rfl, h2⟩

/-- Witness for C3 amended: the empty title is rejected with an error
naming title, and a whitespace-only from_memory_id is rejected with an
error naming from_memory_id. -/
theorem C3_required_string_validation_witness :
    (Memory.mk? none .problem [] (s2p "x") none [] none (ratHalf)
        (ratFourFifths) none 0 0 0 none = Except.error (s2p "title")) ∧
    (Relationship.mk? none (s2p " ") (s2p "b") .SOLVES
        { created_at := 0, last_validated := 0 } none false
      = Except.error (s2p "from_memory_id")) :=
  ⟨(C3_required_string_validation none .problem [] (s2p "x") none [] none
      (ratHalf) (ratFourFifths) none 0 0 0 none none (s2p " ") (s2p "b")
      .SOLVES { created_at := 0, last_validated := 0 } none false).1 rfl,
   (C3_required_string_validation none .problem [] (s2p "x") none [] none
      (ratHalf) (ratFourFifths) none 0 0 0 none none (s2p " ") (s2p "b")
      .SOLVES { created_at := 0, last_validated := 0 } none false).2.2.2.2.1
     (by decide)⟩

/-- Counterexample to C2: for a context list-valued field that is empty the
property mapping does contain the key, bound to a null value, because
props[key] = str(value) if value else None stores None instead of
omitting the key. -/
theorem C2_empty_list_key_is_present :
    pget (s2p "context_files_involved") (memoryToProps memoryWithEmptyCtx)
      = some PropValue.null := by
  decide

/-- C2 amended: the unset optional fields summary (absent or empty
string), effectiveness and last_accessed are omitted from the property
mapping entirely; but an empty context list- or map-valued field is not
omitted: its key is present and bound to a null value, while a non-empty
one is bound to the str(value) flattening. -/
theorem C2_optional_field_omission (m : Memory) :
    ((m.summary = none ∨ m.summary = some []) →
      pget (s2p "summary") (memoryToProps m) = none) ∧
    (m.effectiveness = none →
      pget (s2p "effectiveness") (memoryToProps m) = none) ∧
    (m.last_accessed = none →
      pget (s2p "last_accessed") (memoryToProps m) = none) ∧
    (∀ c, m.context = some c →
      (c.files_involved = [] →
        pget (s2p "context_files_involved") (memoryToProps m) = some PropValue.null) ∧
      (c.languages = [] →
        pget (s2p "context_languages") (memoryToProps m) = some PropValue.null) ∧
      (c.frameworks = [] →
        pget (s2p "context_frameworks") (memoryToProps m) = some PropValue.null) ∧
      (c.technologies = [] →
        pget (s2p "context_technologies") (memoryToProps m) = some PropValue.null) ∧
      (c.additional_metadata = [] →
        pget (s2p "context_additional_metadata") (memoryToProps m) = some PropValue.null) ∧
      (c.files_involved ≠ [] →
        pget (s2p "context_files_involved") (memoryToProps m)
          = some (PropValue.s (pyReprStrList c.files_involved)))) := by
  refine ⟨?_, ?_, ?_, ?_⟩
  · rintro (h | h) <;>
      cases hc : m.context <;>
        simp +decide [memoryToProps, MemoryNode.to_neo4j_properties, contextProps,
          truthyStrOpt, pget, h, hc]
  · intro h
    cases hc : m.context <;>
      simp +decide [memoryToProps, MemoryNode.to_neo4j_properties, contextProps,
        truthyStrOpt, pget, h, hc]
  · intro h
    cases hc : m.context <;>
      simp +decide [memoryToProps, MemoryNode.to_neo4j_properties, contextProps,
        truthyStrOpt, pget, h, hc]
  · intro c hc
    refine ⟨?_, ?_, ?_, ?_, ?_, ?_⟩ <;> intro h <;>
      simp +decide [memoryToProps, MemoryNode.to_neo4j_properties, contextProps,
        truthyStrOpt, pget, hc, h]

/-- Witness for C2 amended at concrete memories. -/
theorem C2_optional_field_omission_witness :
    pget (s2p "summary") (memoryToProps sampleMemory) = none ∧
    pget (s2p "effectiveness") (memoryToProps sampleMemory) = none ∧
    pget (s2p "last_accessed") (memoryToProps sampleMemory) = none ∧
    pget (s2p "context_languages") (memoryToProps memoryWithEmptyCtx)
      = some PropValue.null :=
  ⟨(C2_optional_field_omission sampleMemory).1 (Or.inl rfl),
   (C2_optional_field_omission sampleMemory).2.1 rfl,
   (C2_optional_field_omission sampleMemory).2.2.1 rfl,
   ((C2_optional_field_omission memoryWithEmptyCtx).2.2.2 ctxEmptyLists rfl).2.1 rfl⟩


/-- C4: when either endpoint id has no stored memory node,
create_relationship yields the storage error raised by the facade
(RuntimeError in the source) and leaves the graph unchanged, so no
dangling edge is ever created. -/
theorem C4_create_relationship_missing_endpoint (g : Graph)
    (fromId toId : PyStr) (rty : RelationshipType)
    (props : Option RelationshipProperties) (relId : PyStr) (now : Nat)
    (h : getNode g fromId = none ∨ getNode g toId = none) :
    (create_relationship g fromId toId rty props relId now).1
      = Except.error (s2p "Failed to create relationship") ∧
    (create_relationship g fromId toId rty props relId now).2 = g := by
  unfold create_relationship
  rcases h with h | h
  · simp [h]
  · cases hf : getNode g fromId <;> simp [h, hf]

/-- Witness for C4 on the empty graph, whose endpoints do not exist. -/
theorem C4_create_relationship_missing_endpoint_witness :
    (create_relationship {} (s2p "a") (s2p "b") .SOLVES none (s2p "r-1") 3).1
      = Except.error (s2p "Failed to create relationship") ∧
    (create_relationship {} (s2p "a") (s2p "b") .SOLVES none (s2p "r-1") 3).2 = {} :=
  C4_create_relationship_missing_endpoint {} (s2p "a") (s2p "b") .SOLVES none
    (s2p "r-1") 3 (Or.inl rfl)

/-- Counterexample to C8: storing the freshly constructed memory at a
later instant than its construction makes the retrieved record carry
created_at = 0 but updated_at = 1, because store_memory restamps
updated_at with the store time; the claimed equality fails. -/
theorem C8_created_neq_updated :
    (get_memory ((store_memory {} (freshProblem 0) (s2p "m-1") 1).2.1)
        (s2p "m-1") 2).map (fun m => (m.created_at, m.updated_at))
      = some (0, 1) := by
  decide

/-- C8 amended: storing a freshly constructed id-less Memory returns the
generated id, and getting that id returns the stored object: usage_count
is 0 and created_at keeps the construction instant, but updated_at is the
store instant (so created_at = updated_at only when the two coincide). -/
theorem C8_store_get_roundtrip (t0 t1 t2 : Nat) :
    (store_memory {} (freshProblem t0) (s2p "m-1") t1).1 = Except.ok (s2p "m-1") ∧
    get_memory ((store_memory {} (freshProblem t0) (s2p "m-1") t1).2.1)
        (s2p "m-1") t2
      = some { freshProblem t0 with id := some (s2p "m-1"), updated_at := t1 } := by
  have E : memoryToProps { freshProblem t0 with id := some (s2p "m-1"), updated_at := t1 }
      = [(s2p "id", PropValue.s (s2p "m-1")),
         (s2p "type", PropValue.s (s2p "problem")),
         (s2p "title", PropValue.s (s2p "NPE on null user")),
         (s2p "content", PropValue.s (s2p "guard the user lookup against None")),
         (s2p "tags", PropValue.list []),
         (s2p "importance", PropValue.q ratHalf),
         (s2p "confidence", PropValue.q ratFourFifths),
         (s2p "usage_count", PropValue.n 0),
         (s2p "created_at", PropValue.time t0),
         (s2p "updated_at", PropValue.time t1)] := rfl
  have S : (store_memory {} (freshProblem t0) (s2p "m-1") t1).2.1
      = mergeSetNode {} (s2p "m-1")
          (memoryToProps { freshProblem t0 with id := some (s2p "m-1"), updated_at := t1 }) := rfl
  refine ⟨rfl, ?_⟩
  rw [S, E]
  rfl


/-- Field characterization of a successful Memory construction. -/
theorem Memory.mk?_ok {id : Option PyStr} {type : MemoryType}
    {title content : PyStr} {summary : Option PyStr} {tags : List PyStr}
    {ctx : Option MemoryContext} {imp conf : Rat} {eff : Option Rat}
    {uc : Int} {ca ua : Nat} {la : Option Nat} {m : Memory}
    (h : Memory.mk? id type title content summary tags ctx imp conf eff uc ca ua la
      = Except.ok m) :
    m = { id := id, type := type, title := pystrip title,
          content := pystrip content, summary := summary,
          tags := validate_tags tags, context := ctx, importance := imp,
          confidence := conf, effectiveness := eff, usage_count := uc.toNat,
          created_at := ca, updated_at := ua, last_accessed := la } := by
  unfold Memory.mk? at h
  split_ifs at h
  cases h
  rfl

/-- The importance carried by a decoded Memory is exactly what decNum read
from the node property map. -/
theorem decoded_importance {now : Nat} {d : PropMap} {m : Memory}
    (h : neo4j_to_memory now d = some m) :
    decNum (s2p "importance") ratHalf d = some m.importance := by
  unfold neo4j_to_memory at h
  have hb : @bind Option _ = @Option.bind := rfl
  rw [hb] at h
  rw [Option.bind_eq_some] at h
  obtain ⟨idv, h1, h⟩ := h
  rw [Option.bind_eq_some] at h
  obtain ⟨ty, h2, h⟩ := h
  rw [Option.bind_eq_some] at h
  obtain ⟨title, h3, h⟩ := h
  rw [Option.bind_eq_some] at h
  obtain ⟨content, h4, h⟩ := h
  rw [Option.bind_eq_some] at h
  obtain ⟨summary, h5, h⟩ := h
  rw [Option.bind_eq_some] at h
  obtain ⟨tags, h6, h⟩ := h
  rw [Option.bind_eq_some] at h
  obtain ⟨imp, h7, h⟩ := h
  rw [Option.bind_eq_some] at h
  obtain ⟨conf, h8, h⟩ := h
  rw [Option.bind_eq_some] at h
  obtain ⟨eff, h9, h⟩ := h
  rw [Option.bind_eq_some] at h
  obtain ⟨uc, h10, h⟩ := h
  rw [Option.bind_eq_some] at h
  obtain ⟨ca, h11, h⟩ := h
  rw [Option.bind_eq_some] at h
  obtain ⟨ua, h12, h⟩ := h
  rw [Option.bind_eq_some] at h
  obtain ⟨la, h13, h⟩ := h
  rw [Option.bind_eq_some] at h
  obtain ⟨ctx, h14, h15⟩ := h
  have hok : Memory.mk? idv ty title content summary tags ctx imp conf eff uc ca ua la
      = Except.ok m := by
    cases hmk : Memory.mk? idv ty title content summary tags ctx imp conf eff uc ca ua la with
    | ok v => rw [hmk] at h15; cases h15; rfl
    | error e => rw [hmk] at h15; cases h15
  have := Memory.mk?_ok hok
  subst this
  exact h7

/-- Counterexample to C6: min_effectiveness is a populated filter field of
SearchQuery, yet search_memories builds no condition for it (the query
builder never reads it), so a search demanding effectiveness at least 0.8
still returns a record whose effectiveness is 0.1. -/
theorem C6_min_effectiveness_filter_ignored :
    qEff.min_effectiveness = some ratFourFifths ∧
    buildConditions qEff = [] ∧
    (search_memories ((store_memory {} memEff (s2p "A") 1).2.1) qEff 2).map
        (fun m => m.effectiveness) = [some ratTenth] := by
  refine ⟨rfl, rfl, ?_⟩
  decide

/-- C6 amended: with min_importance set, search_memories never returns a
memory whose importance is below the threshold; each populated filter
field among query, memory_types, tags, project_path, min_importance,
min_confidence, created_after and created_before contributes exactly one
conjunctive condition; min_effectiveness, languages and frameworks are
ignored by the query builder; and when no condition is built the WHERE
clause accepts every record. -/
theorem C6_search_filter_semantics (g : Graph) (q : SearchQuery) (now : Nat) :
    (∀ x, q.min_importance = some x →
      ∀ m ∈ search_memories g q now, x ≤ m.importance) ∧
    ((buildConditions q).length = condCount q) ∧
    (∀ e ls fs,
      buildConditions
        { q with min_effectiveness := e, languages := ls, frameworks := fs }
      = buildConditions q) ∧
    (buildConditions q = [] → ∀ p, matchesWhere q p = true) := by
  refine ⟨?_, ?_, ?_, ?_⟩
  · intro x hx m hm
    unfold search_memories at hm
    rw [List.mem_filterMap] at hm
    obtain ⟨kv, hkv, hdec⟩ := hm
    have hkv2 : kv ∈ (g.nodes.filter fun kv => matchesWhere q kv.2).insertionSort searchLE :=
      List.take_subset _ _ hkv
    rw [List.mem_insertionSort, List.mem_filter] at hkv2
    have hmatch : matchesWhere q kv.2 = true := hkv2.2
    have hcond : Cond.impGE x ∈ buildConditions q := by
      simp [buildConditions, hx]
    have heval : evalCond kv.2 (Cond.impGE x) = true := by
      rw [matchesWhere, List.all_eq_true] at hmatch
      exact hmatch _ hcond
    have himp := decoded_importance hdec
    unfold evalCond at heval
    unfold decNum at himp
    cases hp : pget (s2p "importance") kv.2 with
    | none => rw [hp] at heval; simp at heval
    | some v =>
      cases v with
      | q r =>
        rw [hp] at heval himp
        simp at heval himp
        rw [← himp]
        exact heval
      | n i =>
        rw [hp] at heval himp
        simp at heval himp
        rw [← himp]
        exact_mod_cast heval
      | s v => rw [hp] at heval; simp at heval
      | list v => rw [hp] at heval; simp at heval
      | time t => rw [hp] at heval; simp at heval
      | null => rw [hp] at heval; simp at heval
  · unfold buildConditions condCount
    cases q.query <;> cases q.project_path <;> cases q.min_importance <;>
      cases q.min_confidence <;> cases q.created_after <;> cases q.created_before <;>
        simp +decide [apply_ite List.length] <;> split_ifs <;> simp
  · intro e ls fs
    rfl
  · intro h p
    rw [matchesWhere, h]
    rfl

/-- Witness for C6 amended at a concrete graph and query. -/
theorem C6_search_filter_semantics_witness :
    (∀ m ∈ search_memories ((store_memory {} memEff (s2p "A") 1).2.1)
        { min_importance := some ratHalf } 2, ratHalf ≤ m.importance) ∧
    (buildConditions {} = [] → ∀ p, matchesWhere ({} : SearchQuery) p = true) :=
  ⟨(C6_search_filter_semantics ((store_memory {} memEff (s2p "A") 1).2.1)
      { min_importance := some ratHalf } 2).1 ratHalf rfl,
   (C6_search_filter_semantics {} {} 2).2.2.2⟩


theorem except_bind_ok {ε α β : Type} {x : Except ε α} {f : α → Except ε β} {b : β} :
    x.bind f = Except.ok b ↔ ∃ a, x = Except.ok a ∧ f a = Except.ok b := by
  cases x with
  | ok a => simp [Except.bind]
  | error e => simp [Except.bind]

/-- Every pair produced by the result-building loop comes from a row of
the input list: the memory decodes from the related node of that row and
the relationship is synthesized from the row's first-hop edge data. -/
theorem buildPairs_mem {g : Graph} {memory_id : PyStr} {now : Nat} :
    ∀ {rows : List (Edge × PyStr)} {out : List (Memory × Relationship)},
      buildPairs g memory_id now rows = Except.ok out →
      ∀ p ∈ out, ∃ row ∈ rows,
        (match getNode g row.2 with
         | none => none
         | some props => neo4j_to_memory now props) = some p.1 ∧
        synthRel memory_id p.1 row.1.props now = Except.ok p.2
  | [], out => by
    intro h p hp
    unfold buildPairs at h
    cases h
    cases hp
  | row :: rest, out => by
    intro h p hp
    unfold buildPairs at h
    cases hdec : (match getNode g row.2 with
                  | none => none
                  | some props => neo4j_to_memory now props) with
    | none =>
      rw [hdec] at h
      obtain ⟨row2, hrow2, hprops⟩ := buildPairs_mem h p hp
      exact ⟨row2, List.mem_cons_of_mem _ hrow2, hprops⟩
    | some m =>
      rw [hdec] at h
      rw [show (bind : Except PyStr Relationship → _ → Except PyStr (List (Memory × Relationship)))
            = Except.bind from rfl] at h
      rw [except_bind_ok] at h
      obtain ⟨r, hr, h⟩ := h
      rw [show (bind : Except PyStr (List (Memory × Relationship)) → _ →
              Except PyStr (List (Memory × Relationship)))
            = Except.bind from rfl] at h
      rw [except_bind_ok] at h
      obtain ⟨tl, htl, h⟩ := h
      cases h
      rcases List.mem_cons.mp hp with hp | hp
      · subst hp
        exact ⟨row, List.mem_cons_self _ _, hdec, hr⟩
      · obtain ⟨row2, hrow2, hprops⟩ := buildPairs_mem htl p hp
        exact ⟨row2, List.mem_cons_of_mem _ hrow2, hprops⟩

/-- Field characterization of a successfully synthesized Relationship. -/
theorem synthRel_ok {memory_id : PyStr} {m : Memory} {relProps : PropMap}
    {now : Nat} {r : Relationship}
    (h : synthRel memory_id m relProps now = Except.ok r) :
    r.from_memory_id = pystrip memory_id ∧
    (∃ tid, m.id = some tid ∧ r.to_memory_id = pystrip tid) ∧
    (pget (s2p "type") relProps = none → r.type = RelationshipType.RELATED_TO) ∧
    (pget (s2p "strength") relProps = none → r.properties.strength = ratHalf) ∧
    (pget (s2p "confidence") relProps = none → r.properties.confidence = ratFourFifths) := by
  unfold synthRel at h
  have hb : @bind (Except PyStr) _ = @Except.bind PyStr := rfl
  rw [hb] at h
  rw [except_bind_ok] at h
  obtain ⟨tyv, h1, h⟩ := h
  rw [except_bind_ok] at h
  obtain ⟨ty, h2, h⟩ := h
  rw [except_bind_ok] at h
  obtain ⟨st, h3, h⟩ := h
  rw [except_bind_ok] at h
  obtain ⟨cf, h4, h⟩ := h
  rw [except_bind_ok] at h
  obtain ⟨props, h5, h⟩ := h
  rw [except_bind_ok] at h
  obtain ⟨tid, h6, h7⟩ := h
  have hprops : props =
      { strength := st, confidence := cf,
        created_at := now, last_validated := now } := by
    unfold RelationshipProperties.mkSynth? at h5
    split_ifs at h5
    cases h5
    rfl
  have htid : m.id = some tid := by
    unfold ofOpt at h6
    cases hmid : m.id with
    | none => rw [hmid] at h6; cases h6
    | some t => rw [hmid] at h6; cases h6; rfl
  have hr : r =
      { id := none, from_memory_id := pystrip memory_id,
        to_memory_id := pystrip tid, type := ty, properties := props,
        description := none, bidirectional := false } := by
    unfold Relationship.mk? at h7
    split_ifs at h7
    cases h7
    rfl
  subst hr hprops
  refine ⟨rfl, ⟨tid, htid, rfl⟩, ?_, ?_, ?_⟩
  · intro hnone
    rw [hnone] at h1
    unfold ofOpt at h1
    cases h1
    rw [show RelationshipType.ofValue? (s2p "RELATED_TO")
          = some RelationshipType.RELATED_TO from by decide] at h2
    unfold ofOpt at h2
    cases h2
    rfl
  · intro hnone
    rw [hnone] at h3
    unfold ofOpt at h3
    cases h3
    rfl
  · intro hnone
    rw [hnone] at h4
    unfold ofOpt at h4
    cases h4
    rfl

/-- C10: every pair returned by get_related_memories has a synthesized
Relationship pointing from the queried id to the decoded related memory
id, whatever the stored direction of the traversed edge was, and its
type, strength and confidence default to RELATED_TO, 0.5 and 0.8 when
those keys are absent from the first-hop edge data. -/
theorem C10_synthesized_relationship (g : Graph) (memory_id : PyStr)
    (ts : List RelationshipType) (maxDepth now : Nat)
    (out : List (Memory × Relationship)) (m : Memory) (r : Relationship)
    (hout : get_related_memories g memory_id ts maxDepth now = Except.ok out)
    (hmem : (m, r) ∈ out) :
    r.from_memory_id = pystrip memory_id ∧
    (∃ tid, m.id = some tid ∧ r.to_memory_id = pystrip tid) ∧
    ∃ row ∈ relatedRows g ts maxDepth memory_id,
      (pget (s2p "type") row.1.props = none → r.type = RelationshipType.RELATED_TO) ∧
      (pget (s2p "strength") row.1.props = none → r.properties.strength = ratHalf) ∧
      (pget (s2p "confidence") row.1.props = none →
        r.properties.confidence = ratFourFifths) := by
  unfold get_related_memories at hout
  cases hstart : getNode g memory_id with
  | none =>
    rw [hstart] at hout
    cases hout
    cases hmem
  | some props =>
    rw [hstart] at hout
    obtain ⟨row, hrow, _, hsynth⟩ := buildPairs_mem hout (m, r) hmem
    obtain ⟨hfrom, htid, hty, hst, hcf⟩ := synthRel_ok hsynth
    exact ⟨hfrom, htid, row, hrow, hty, hst, hcf⟩

/-- Witness for C10 on the concrete graph whose only edge is stored in the
direction opposite to the synthesized relationship. -/
theorem C10_synthesized_relationship_witness :
    relSynth.from_memory_id = pystrip (s2p "A") ∧
    (∃ tid, memBStored.id = some tid ∧ relSynth.to_memory_id = pystrip tid) ∧
    ∃ row ∈ relatedRows gRel [] 1 (s2p "A"),
      (pget (s2p "type") row.1.props = none →
        relSynth.type = RelationshipType.RELATED_TO) ∧
      (pget (s2p "strength") row.1.props = none →
        relSynth.properties.strength = ratHalf) ∧
      (pget (s2p "confidence") row.1.props = none →
        relSynth.properties.confidence = ratFourFifths) :=
  C10_synthesized_relationship gRel (s2p "A") [] 1 0 [(memBStored, relSynth)]
    memBStored relSynth (by decide) (by decide)

/-- The id carried by a decoded Memory is exactly what decStrOpt read from
the node property map. -/
theorem decoded_id {now : Nat} {d : PropMap} {m : Memory}
    (h : neo4j_to_memory now d = some m) :
    decStrOpt (s2p "id") d = some m.id := by
  unfold neo4j_to_memory at h
  have hb : @bind Option _ = @Option.bind := rfl
  rw [hb] at h
  rw [Option.bind_eq_some] at h
  obtain ⟨idv, h1, h⟩ := h
  rw [Option.bind_eq_some] at h
  obtain ⟨ty, h2, h⟩ := h
  rw [Option.bind_eq_some] at h
  obtain ⟨title, h3, h⟩ := h
  rw [Option.bind_eq_some] at h
  obtain ⟨content, h4, h⟩ := h
  rw [Option.bind_eq_some] at h
  obtain ⟨summary, h5, h⟩ := h
  rw [Option.bind_eq_some] at h
  obtain ⟨tags, h6, h⟩ := h
  rw [Option.bind_eq_some] at h
  obtain ⟨imp, h7, h⟩ := h
  rw [Option.bind_eq_some] at h
  obtain ⟨conf, h8, h⟩ := h
  rw [Option.bind_eq_some] at h
  obtain ⟨eff, h9, h⟩ := h
  rw [Option.bind_eq_some] at h
  obtain ⟨uc, h10, h⟩ := h
  rw [Option.bind_eq_some] at h
  obtain ⟨ca, h11, h⟩ := h
  rw [Option.bind_eq_some] at h
  obtain ⟨ua, h12, h⟩ := h
  rw [Option.bind_eq_some] at h
  obtain ⟨la, h13, h⟩ := h
  rw [Option.bind_eq_some] at h
  obtain ⟨ctx, h14, h15⟩ := h
  have hok : Memory.mk? idv ty title content summary tags ctx imp conf eff uc ca ua la
      = Except.ok m := by
    cases hmk : Memory.mk? idv ty title content summary tags ctx imp conf eff uc ca ua la with
    | ok v => rw [hmk] at h15; cases h15; rfl
    | error e => rw [hmk] at h15; cases h15
  have := Memory.mk?_ok hok
  subst this
  exact h1

/-- A found node is a member of the node list under its key. -/
theorem getNode_mem {g : Graph} {nid : PyStr} {props : PropMap}
    (h : getNode g nid = some props) : (nid, props) ∈ g.nodes := by
  unfold getNode at h
  cases hf : g.nodes.find? fun kv => decide (kv.1 = nid) with
  | none => rw [hf] at h; cases h
  | some kv =>
    rw [hf] at h
    cases h
    have hp := List.find?_some hf
    have hm := List.mem_of_find?_eq_some hf
    have : kv.1 = nid := by simpa using hp
    rw [← this]
    simpa using hm

/-- Adjacency unpacking: an adjacency entry is a graph edge with the given
node at one end and the far endpoint at the other, passing the filter. -/
theorem adjEdges_spec {g : Graph} {ts : List RelationshipType} {nid : PyStr}
    {e : Edge} {nxt : PyStr} (h : (e, nxt) ∈ adjEdges g ts nid) :
    e ∈ g.edges ∧ ((e.src = nid ∧ e.dst = nxt) ∨ (e.src = nxt ∧ e.dst = nid)) := by
  unfold adjEdges at h
  rw [List.mem_filterMap] at h
  obtain ⟨e2, he2, hf⟩ := h
  split_ifs at hf with h1 h2 h3
  · cases hf
    exact ⟨he2, Or.inl ⟨h2, rfl⟩⟩
  · cases hf
    exact ⟨he2, Or.inr ⟨rfl, h3⟩⟩

/-- Every endpoint listed by reachEnds is connected to the current node by
an undirected walk of length between 1 and the fuel bound. -/
theorem reachEnds_walk {g : Graph} {ts : List RelationshipType} :
    ∀ {fuel : Nat} {cur : PyStr} {used : List Nat} {k : PyStr},
      k ∈ reachEnds g ts fuel cur used →
      ∃ n, 1 ≤ n ∧ n ≤ fuel ∧ Walk g cur k n := by
  intro fuel
  induction fuel with
  | zero => intro cur used k h; cases h
  | succ d ih =>
    intro cur used k h
    unfold reachEnds at h
    rw [List.mem_flatMap] at h
    obtain ⟨p, hp, hk⟩ := h
    by_cases hused : p.1.eid ∈ used
    · rw [if_pos hused] at hk
      cases hk
    · rw [if_neg hused] at hk
      obtain ⟨hedge, hend⟩ := @adjEdges_spec g ts cur p.1 p.2 (by
        cases p
        exact hp)
      rcases List.mem_cons.mp hk with hk | hk
      · subst hk
        exact ⟨1, le_refl 1, by omega, Walk.step p.1 hedge hend (Walk.refl _)⟩
      · obtain ⟨n, hn1, hn2, hw⟩ := ih hk
        exact ⟨n + 1, by omega, by omega, Walk.step p.1 hedge hend hw⟩

/-- Every row of the variable-length pattern reaches its endpoint within
the depth bound. -/
theorem pathRows_walk {g : Graph} {ts : List RelationshipType}
    {maxDepth : Nat} {start : PyStr} {row : Edge × PyStr}
    (h : row ∈ pathRows g ts maxDepth start) :
    ∃ n, 1 ≤ n ∧ n ≤ maxDepth ∧ Walk g start row.2 n := by
  unfold pathRows at h
  cases maxDepth with
  | zero => cases h
  | succ d =>
    rw [List.mem_flatMap] at h
    obtain ⟨p, hp, hrow⟩ := h
    rw [List.mem_map] at hrow
    obtain ⟨endId, hend, hrow⟩ := hrow
    obtain ⟨hedge, hends⟩ := @adjEdges_spec g ts start p.1 p.2 (by
      cases p
      exact hp)
    rcases List.mem_cons.mp hend with he | he
    · subst he
      subst hrow
      exact ⟨1, le_refl 1, by omega, Walk.step p.1 hedge hends (Walk.refl _)⟩
    · obtain ⟨n, hn1, hn2, hw⟩ := reachEnds_walk he
      subst hrow
      exact ⟨n + 1, by omega, by omega, Walk.step p.1 hedge hends hw⟩

/-- Rows selected by relatedRows come from the path pattern and exclude
the start node. -/
theorem relatedRows_spec {g : Graph} {ts : List RelationshipType}
    {maxDepth : Nat} {start : PyStr} {row : Edge × PyStr}
    (h : row ∈ relatedRows g ts maxDepth start) :
    row ∈ pathRows g ts maxDepth start ∧ row.2 ≠ start := by
  unfold relatedRows at h
  have h2 := List.take_subset _ _ h
  rw [List.mem_insertionSort, List.mem_dedup, List.mem_filter] at h2
  exact ⟨h2.1, by simpa using h2.2⟩

/-- The builder yields at most one pair per row. -/
theorem buildPairs_length {g : Graph} {memory_id : PyStr} {now : Nat} :
    ∀ {rows : List (Edge × PyStr)} {out : List (Memory × Relationship)},
      buildPairs g memory_id now rows = Except.ok out → out.length ≤ rows.length
  | [], out => by
    intro h
    unfold buildPairs at h
    cases h
    simp
  | row :: rest, out => by
    intro h
    unfold buildPairs at h
    cases hdec : (match getNode g row.2 with
                  | none => none
                  | some props => neo4j_to_memory now props) with
    | none =>
      rw [hdec] at h
      have := buildPairs_length h
      simpa using Nat.le_succ_of_le this
    | some m =>
      rw [hdec] at h
      rw [show (bind : Except PyStr Relationship → _ → Except PyStr (List (Memory × Relationship)))
            = Except.bind from rfl] at h
      rw [except_bind_ok] at h
      obtain ⟨r, hr, h⟩ := h
      rw [show (bind : Except PyStr (List (Memory × Relationship)) → _ →
              Except PyStr (List (Memory × Relationship)))
            = Except.bind from rfl] at h
      rw [except_bind_ok] at h
      obtain ⟨tl, htl, h⟩ := h
      cases h
      have := buildPairs_length htl
      simpa using this

/-- Counterexample to C5: with two parallel edges between the queried node
A and the same related node B, get_related_memories returns the memory B
twice — RETURN DISTINCT deduplicates the (related, r[0]) pair, not the
related node alone, so the claimed deduplication by related-node identity
fails. -/
theorem C5_parallel_edges_duplicate_memory :
    (get_related_memories gPar (s2p "A") [] 1 0).map
        (fun out => out.map fun p => p.1.id)
      = Except.ok [some (s2p "B"), some (s2p "B")] := by
  decide

/-- C5 amended: on a well-formed graph every successful get_related_memories
call returns at most 20 pairs, never the start memory itself, and only
memories whose node is connected to the start node by an undirected walk
of between 1 and max_depth edges; the row list is deduplicated by the
(related node, first-hop relationship) pair — the same memory may recur
with different first-hop edges — and is sorted by first-hop strength
descending, then related importance descending. -/
theorem C5_bounded_traversal (g : Graph) (memory_id : PyStr)
    (ts : List RelationshipType) (maxDepth now : Nat)
    (out : List (Memory × Relationship)) (hwf : GraphWF g)
    (hout : get_related_memories g memory_id ts maxDepth now = Except.ok out) :
    out.length ≤ 20 ∧
    (∀ p ∈ out, p.1.id ≠ some memory_id) ∧
    (∀ p ∈ out, ∃ k n, p.1.id = some k ∧ 1 ≤ n ∧ n ≤ maxDepth ∧
      Walk g memory_id k n) ∧
    (relatedRows g ts maxDepth memory_id).Nodup ∧
    List.Sorted (rowLE g) (relatedRows g ts maxDepth memory_id) := by
  have hNodup : (relatedRows g ts maxDepth memory_id).Nodup :=
    List.Nodup.sublist (List.take_sublist _ _)
      (((List.perm_insertionSort (rowLE g) _).nodup_iff).mpr (List.nodup_dedup _))
  have hSorted : List.Sorted (rowLE g) (relatedRows g ts maxDepth memory_id) :=
    List.Pairwise.sublist (List.take_sublist _ _)
      (List.sorted_insertionSort (rowLE g) _)
  unfold get_related_memories at hout
  cases hstart : getNode g memory_id with
  | none =>
    rw [hstart] at hout
    cases hout
    exact ⟨by simp, by simp, by simp, hNodup, hSorted⟩
  | some props =>
    rw [hstart] at hout
    have hids : ∀ p ∈ out,
        ∃ row ∈ relatedRows g ts maxDepth memory_id, p.1.id = some row.2 := by
      intro p hp
      obtain ⟨row, hrow, hdec, _⟩ := buildPairs_mem hout p hp
      refine ⟨row, hrow, ?_⟩
      cases hg : getNode g row.2 with
      | none => rw [hg] at hdec; cases hdec
      | some nprops =>
        rw [hg] at hdec
        have hid := decoded_id hdec
        have hwfn := hwf _ (getNode_mem hg)
        unfold decStrOpt at hid
        rw [hwfn] at hid
        simpa using hid.symm
    refine ⟨?_, ?_, ?_, hNodup, hSorted⟩
    · have h1 := buildPairs_length hout
      have h2 : (relatedRows g ts maxDepth memory_id).length ≤ 20 := by
        unfold relatedRows
        exact List.length_take_le _ _
      omega
    · intro p hp
      obtain ⟨row, hrow, hid⟩ := hids p hp
      have hne := (relatedRows_spec hrow).2
      rw [hid]
      simpa using hne
    · intro p hp
      obtain ⟨row, hrow, hid⟩ := hids p hp
      obtain ⟨n, h1, h2, hw⟩ := pathRows_walk (relatedRows_spec hrow).1
      exact ⟨row.2, n, hid, h1, h2, hw⟩

/-- Witness for C5 amended on the concrete graph gRel. -/
theorem C5_bounded_traversal_witness :
    ([(memBStored, relSynth)] : List (Memory × Relationship)).length ≤ 20 ∧
    (∀ p ∈ ([(memBStored, relSynth)] : List (Memory × Relationship)),
      p.1.id ≠ some (s2p "A")) ∧
    (∀ p ∈ ([(memBStored, relSynth)] : List (Memory × Relationship)),
      ∃ k n, p.1.id = some k ∧ 1 ≤ n ∧ n ≤ 1 ∧ Walk gRel (s2p "A") k n) ∧
    (relatedRows gRel [] 1 (s2p "A")).Nodup ∧
    List.Sorted (rowLE gRel) (relatedRows gRel [] 1 (s2p "A")) :=
  C5_bounded_traversal gRel (s2p "A") [] 1 0 [(memBStored, relSynth)]
    (by unfold GraphWF; decide) (by decide)


/-- The enum round trip for memory types. -/
theorem MemoryType.ofValue?_value (t : MemoryType) :
    MemoryType.ofValue? t.value = some t := by
  cases t <;> decide

/-- Lookup of the id on an encoded map. -/
theorem decStrOpt_id_encode (m : Memory) :
    decStrOpt (s2p "id") (memoryToProps m) = some m.id := by
  cases hc : m.context <;> cases hid : m.id <;>
    simp +decide [decStrOpt, memoryToProps, MemoryNode.to_neo4j_properties,
      contextProps, truthyStrOpt, pget, hc, hid]

/-- Lookup of the type on an encoded map. -/
theorem pget_type_encode (m : Memory) :
    pget (s2p "type") (memoryToProps m) = some (PropValue.s m.type.value) := by
  cases hc : m.context <;>
    simp +decide [memoryToProps, MemoryNode.to_neo4j_properties,
      contextProps, truthyStrOpt, pget, hc]

/-- Lookup of the title on an encoded map. -/
theorem decStr_title_encode (m : Memory) :
    decStr (s2p "title") (memoryToProps m) = some m.title := by
  cases hc : m.context <;>
    simp +decide [decStr, memoryToProps, MemoryNode.to_neo4j_properties,
      contextProps, truthyStrOpt, pget, hc]

/-- Lookup of the content on an encoded map. -/
theorem decStr_content_encode (m : Memory) :
    decStr (s2p "content") (memoryToProps m) = some m.content := by
  cases hc : m.context <;>
    simp +decide [decStr, memoryToProps, MemoryNode.to_neo4j_properties,
      contextProps, truthyStrOpt, pget, hc]

/-- Lookup of the summary on an encoded map, for present non-empty
summaries and for unset ones. -/
theorem decStrOpt_summary_encode (m : Memory)
    (h : m.summary = none ∨ ∃ s, m.summary = some s ∧ s ≠ []) :
    decStrOpt (s2p "summary") (memoryToProps m) = some m.summary := by
  rcases h with h | ⟨s, h, hs⟩
  · cases hc : m.context <;>
      simp +decide [decStrOpt, memoryToProps, MemoryNode.to_neo4j_properties,
        contextProps, truthyStrOpt, pget, hc, h]
  · cases hc : m.context <;>
      simp +decide [decStrOpt, memoryToProps, MemoryNode.to_neo4j_properties,
        contextProps, truthyStrOpt, pget, hc, h, hs]

/-- Lookup of the tags on an encoded map. -/
theorem decTags_encode (m : Memory) :
    decTags (memoryToProps m) = some m.tags := by
  cases hc : m.context <;>
    simp +decide [decTags, memoryToProps, MemoryNode.to_neo4j_properties,
      contextProps, truthyStrOpt, pget, hc]

/-- Lookup of the importance on an encoded map. -/
theorem decNum_importance_encode (m : Memory) :
    decNum (s2p "importance") ratHalf (memoryToProps m) = some m.importance := by
  cases hc : m.context <;>
    simp +decide [decNum, memoryToProps, MemoryNode.to_neo4j_properties,
      contextProps, truthyStrOpt, pget, hc]

/-- Lookup of the confidence on an encoded map. -/
theorem decNum_confidence_encode (m : Memory) :
    decNum (s2p "confidence") ratFourFifths (memoryToProps m) = some m.confidence := by
  cases hc : m.context <;>
    simp +decide [decNum, memoryToProps, MemoryNode.to_neo4j_properties,
      contextProps, truthyStrOpt, pget, hc]

/-- Lookup of the effectiveness on an encoded map. -/
theorem decNumOpt_effectiveness_encode (m : Memory) :
    decNumOpt (s2p "effectiveness") (memoryToProps m) = some m.effectiveness := by
  cases hc : m.context <;> cases he : m.effectiveness <;>
    simp +decide [decNumOpt, memoryToProps, MemoryNode.to_neo4j_properties,
      contextProps, truthyStrOpt, pget, hc, he]

/-- Lookup of the usage count on an encoded map. -/
theorem decInt_usage_encode (m : Memory) :
    decInt (s2p "usage_count") 0 (memoryToProps m) = some (m.usage_count : Int) := by
  cases hc : m.context <;>
    simp +decide [decInt, memoryToProps, MemoryNode.to_neo4j_properties,
      contextProps, truthyStrOpt, pget, hc]

/-- Lookup of the creation timestamp on an encoded map. -/
theorem decTime_created_encode (m : Memory) :
    decTime (s2p "created_at") (memoryToProps m) = some m.created_at := by
  cases hc : m.context <;>
    simp +decide [decTime, memoryToProps, MemoryNode.to_neo4j_properties,
      contextProps, truthyStrOpt, pget, hc]

/-- Lookup of the update timestamp on an encoded map. -/
theorem decTime_updated_encode (m : Memory) :
    decTime (s2p "updated_at") (memoryToProps m) = some m.updated_at := by
  cases hc : m.context <;>
    simp +decide [decTime, memoryToProps, MemoryNode.to_neo4j_properties,
      contextProps, truthyStrOpt, pget, hc]

/-- Lookup of the last-access timestamp on an encoded map. -/
theorem decTimeOpt_last_accessed_encode (m : Memory) :
    decTimeOpt (s2p "last_accessed") (memoryToProps m) = some m.last_accessed := by
  cases hc : m.context <;> cases hl : m.last_accessed <;>
    simp +decide [decTimeOpt, memoryToProps, MemoryNode.to_neo4j_properties,
      contextProps, truthyStrOpt, pget, hc, hl]

/-- Context pair extraction ignores empty maps. -/
theorem ctxPairs_nil : ctxPairs [] = [] := rfl

/-- Context pair extraction distributes over append. -/
theorem ctxPairs_append (a b : PropMap) :
    ctxPairs (a ++ b) = ctxPairs a ++ ctxPairs b := by
  simp [ctxPairs, List.filter_append]

/-- A leading entry without the context prefix is dropped. -/
theorem ctxPairs_cons_notctx (k : PyStr) (v : PropValue) (rest : PropMap)
    (h : hasCtxMark k = false) : ctxPairs ((k, v) :: rest) = ctxPairs rest := by
  simp [ctxPairs, h]

/-- An optional entry without the context prefix is dropped. -/
theorem ctxPairs_optEntry_notctx (k : PyStr) (o : Option PropValue)
    (h : hasCtxMark k = false) : ctxPairs (optEntry k o) = [] := by
  cases o <;> simp [ctxPairs, optEntry, h]

/-- A prefixed optional string entry survives, stripped of its prefix. -/
theorem ctxPairs_optEntry_str (k : PyStr) (o : Option PyStr)
    (h : hasCtxMark k = true) :
    ctxPairs (optEntry k (o.map PropValue.s))
      = optEntry (k.drop 8) (o.map PropValue.s) := by
  cases o <;> simp [ctxPairs, optEntry, h]

/-- The null entry of an empty list field is dropped. -/
theorem ctxPairs_listCtxEntry_nil (k : PyStr) :
    ctxPairs (listCtxEntry k []) = [] := by
  simp [ctxPairs, listCtxEntry]

/-- The null entry of an empty dict field is dropped. -/
theorem ctxPairs_dictCtxEntry_nil (k : PyStr) :
    ctxPairs (dictCtxEntry k []) = [] := by
  simp [ctxPairs, dictCtxEntry]

/-- A prefixed timestamp entry survives, stripped of its prefix. -/
theorem ctxPairs_time (k : PyStr) (t : Nat) (h : hasCtxMark k = true) :
    ctxPairs [(k, PropValue.time t)] = [(k.drop 8, PropValue.time t)] := by
  simp [ctxPairs, h]

/-- On an encoded memory whose context has no list or map data, the
context pairs are exactly the stripped scalar entries. -/
theorem ctxPairs_encode (m : Memory) (c : MemoryContext) (hc : m.context = some c)
    (hfi : c.files_involved = []) (hla : c.languages = [])
    (hfw : c.frameworks = []) (hte : c.technologies = [])
    (ham : c.additional_metadata = []) :
    ctxPairs (memoryToProps m)
      = ctxEnc c.project_path c.git_commit c.git_branch c.working_directory
          c.timestamp c.session_id c.user_id := by
  have d1 : (s2p "context_project_path").drop 8 = s2p "project_path" := by decide
  have d2 : (s2p "context_git_commit").drop 8 = s2p "git_commit" := by decide
  have d3 : (s2p "context_git_branch").drop 8 = s2p "git_branch" := by decide
  have d4 : (s2p "context_working_directory").drop 8 = s2p "working_directory" := by decide
  have d5 : (s2p "context_timestamp").drop 8 = s2p "timestamp" := by decide
  have d6 : (s2p "context_session_id").drop 8 = s2p "session_id" := by decide
  have d7 : (s2p "context_user_id").drop 8 = s2p "user_id" := by decide
  simp only [memoryToProps, MemoryNode.to_neo4j_properties, contextProps, hc,
    hfi, hla, hfw, hte, ham, ctxPairs_append]
  rw [ctxPairs_optEntry_str _ _ (by decide),
    ctxPairs_optEntry_str _ _ (by decide),
    ctxPairs_optEntry_str _ _ (by decide),
    ctxPairs_optEntry_str _ _ (by decide),
    ctxPairs_optEntry_str _ _ (by decide),
    ctxPairs_optEntry_str _ _ (by decide),
    ctxPairs_time _ _ (by decide),
    ctxPairs_listCtxEntry_nil, ctxPairs_listCtxEntry_nil,
    ctxPairs_listCtxEntry_nil, ctxPairs_listCtxEntry_nil,
    ctxPairs_dictCtxEntry_nil,
    d1, d2, d3, d4, d5, d6, d7]
  simp +decide [ctxPairs_cons_notctx, ctxPairs_nil, ctxPairs_optEntry_notctx,
    truthyStrOpt, ctxEnc]

/-- Lookup of an optional scalar context field in the stripped pairs. -/
theorem decStrOpt_ctxEnc_pp (pp gc gb wd : Option PyStr) (ts : Nat)
    (si ui : Option PyStr) :
    decStrOpt (s2p "project_path") (ctxEnc pp gc gb wd ts si ui) = some pp := by
  cases pp <;> simp +decide [decStrOpt, ctxEnc, pget]

theorem decStrOpt_ctxEnc_gc (pp gc gb wd : Option PyStr) (ts : Nat)
    (si ui : Option PyStr) :
    decStrOpt (s2p "git_commit") (ctxEnc pp gc gb wd ts si ui) = some gc := by
  cases gc <;> simp +decide [decStrOpt, ctxEnc, pget]

theorem decStrOpt_ctxEnc_gb (pp gc gb wd : Option PyStr) (ts : Nat)
    (si ui : Option PyStr) :
    decStrOpt (s2p "git_branch") (ctxEnc pp gc gb wd ts si ui) = some gb := by
  cases gb <;> simp +decide [decStrOpt, ctxEnc, pget]

theorem decStrOpt_ctxEnc_wd (pp gc gb wd : Option PyStr) (ts : Nat)
    (si ui : Option PyStr) :
    decStrOpt (s2p "working_directory") (ctxEnc pp gc gb wd ts si ui) = some wd := by
  cases wd <;> simp +decide [decStrOpt, ctxEnc, pget]

theorem decStrOpt_ctxEnc_si (pp gc gb wd : Option PyStr) (ts : Nat)
    (si ui : Option PyStr) :
    decStrOpt (s2p "session_id") (ctxEnc pp gc gb wd ts si ui) = some si := by
  cases si <;> simp +decide [decStrOpt, ctxEnc, pget]

theorem decStrOpt_ctxEnc_ui (pp gc gb wd : Option PyStr) (ts : Nat)
    (si ui : Option PyStr) :
    decStrOpt (s2p "user_id") (ctxEnc pp gc gb wd ts si ui) = some ui := by
  cases ui <;> simp +decide [decStrOpt, ctxEnc, pget]

/-- The four list-valued context fields have no key in the stripped pairs. -/
theorem decCtxList_ctxEnc (k : PyStr) (pp gc gb wd : Option PyStr) (ts : Nat)
    (si ui : Option PyStr)
    (h : k = s2p "files_involved" ∨ k = s2p "languages" ∨
         k = s2p "frameworks" ∨ k = s2p "technologies") :
    decCtxList k (ctxEnc pp gc gb wd ts si ui) = some [] := by
  rcases h with h | h | h | h <;> subst h <;>
    cases pp <;> cases gc <;> cases gb <;> cases wd <;> cases si <;> cases ui <;>
      simp +decide [decCtxList, ctxEnc, pget]

/-- The timestamp lookup in the stripped pairs. -/
theorem pget_ctxEnc_ts (pp gc gb wd : Option PyStr) (ts : Nat)
    (si ui : Option PyStr) :
    pget (s2p "timestamp") (ctxEnc pp gc gb wd ts si ui)
      = some (PropValue.time ts) := by
  cases pp <;> cases gc <;> cases gb <;> cases wd <;>
    simp +decide [ctxEnc, pget]

/-- The metadata lookup in the stripped pairs. -/
theorem pget_ctxEnc_am (pp gc gb wd : Option PyStr) (ts : Nat)
    (si ui : Option PyStr) :
    pget (s2p "additional_metadata") (ctxEnc pp gc gb wd ts si ui) = none := by
  cases pp <;> cases gc <;> cases gb <;> cases wd <;> cases si <;> cases ui <;>
    simp +decide [ctxEnc, pget]

/-- Decoding the context of an encoded memory whose context has no list or
map data reconstructs the context exactly. -/
theorem decCtx_encode (now : Nat) (m : Memory) (c : MemoryContext)
    (hc : m.context = some c) (hfi : c.files_involved = [])
    (hla : c.languages = []) (hfw : c.frameworks = [])
    (hte : c.technologies = []) (ham : c.additional_metadata = []) :
    decCtx now (memoryToProps m) = some (some c) := by
  have hcd := ctxPairs_encode m c hc hfi hla hfw hte ham
  have h1 := decStrOpt_ctxEnc_pp c.project_path c.git_commit c.git_branch
    c.working_directory c.timestamp c.session_id c.user_id
  have h2 := decStrOpt_ctxEnc_gc c.project_path c.git_commit c.git_branch
    c.working_directory c.timestamp c.session_id c.user_id
  have h3 := decStrOpt_ctxEnc_gb c.project_path c.git_commit c.git_branch
    c.working_directory c.timestamp c.session_id c.user_id
  have h4 := decStrOpt_ctxEnc_wd c.project_path c.git_commit c.git_branch
    c.working_directory c.timestamp c.session_id c.user_id
  have h5 := decStrOpt_ctxEnc_si c.project_path c.git_commit c.git_branch
    c.working_directory c.timestamp c.session_id c.user_id
  have h6 := decStrOpt_ctxEnc_ui c.project_path c.git_commit c.git_branch
    c.working_directory c.timestamp c.session_id c.user_id
  have h7 := pget_ctxEnc_ts c.project_path c.git_commit c.git_branch
    c.working_directory c.timestamp c.session_id c.user_id
  have h8 := pget_ctxEnc_am c.project_path c.git_commit c.git_branch
    c.working_directory c.timestamp c.session_id c.user_id
  have h9 := decCtxList_ctxEnc (s2p "files_involved") c.project_path c.git_commit
    c.git_branch c.working_directory c.timestamp c.session_id c.user_id (Or.inl rfl)
  have h10 := decCtxList_ctxEnc (s2p "languages") c.project_path c.git_commit
    c.git_branch c.working_directory c.timestamp c.session_id c.user_id
    (Or.inr (Or.inl rfl))
  have h11 := decCtxList_ctxEnc (s2p "frameworks") c.project_path c.git_commit
    c.git_branch c.working_directory c.timestamp c.session_id c.user_id
    (Or.inr (Or.inr (Or.inl rfl)))
  have h12 := decCtxList_ctxEnc (s2p "technologies") c.project_path c.git_commit
    c.git_branch c.working_directory c.timestamp c.session_id c.user_id
    (Or.inr (Or.inr (Or.inr rfl)))
  have hne : ctxEnc c.project_path c.git_commit c.git_branch c.working_directory
      c.timestamp c.session_id c.user_id ≠ [] := by
    unfold ctxEnc
    simp
  unfold decCtx
  rw [hcd]
  simp only [hne, if_neg, h1, h2, h3, h4, h5, h6, h7, h8, h9, h10, h11, h12,
    Option.bind_eq_bind, Option.some_bind]
  have hceq :
      ({ project_path := c.project_path, files_involved := [],
         languages := [], frameworks := [], technologies := [],
         git_commit := c.git_commit, git_branch := c.git_branch,
         working_directory := c.working_directory, timestamp := c.timestamp,
         session_id := c.session_id, user_id := c.user_id,
         additional_metadata := [] } : MemoryContext) = c := by
    cases c
    simp_all
  rw [← hceq]
  simp

/-- Decoding the context of an encoded memory with no context yields no
context. -/
theorem decCtx_encode_none (now : Nat) (m : Memory) (hc : m.context = none) :
    decCtx now (memoryToProps m) = some none := by
  have hcd : ctxPairs (memoryToProps m) = [] := by
    simp only [memoryToProps, MemoryNode.to_neo4j_properties, hc, ctxPairs_append]
    simp +decide [ctxPairs_cons_notctx, ctxPairs_nil, ctxPairs_optEntry_notctx]
  unfold decCtx
  rw [hcd]
  rfl

/-- Construction succeeds and is the identity on already-validated field
values. -/
theorem mk?_of_validated (m : Memory)
    (h1 : 1 ≤ m.title.length) (h2 : m.title.length ≤ 200)
    (h3 : pystrip m.title = m.title)
    (h4 : 1 ≤ m.content.length) (h5 : pystrip m.content = m.content)
    (h6 : optLe500 m.summary = true)
    (h7 : validate_tags m.tags = m.tags)
    (h8 : inUnit m.importance = true) (h9 : inUnit m.confidence = true)
    (h10 : optInUnit m.effectiveness = true) :
    Memory.mk? m.id m.type m.title m.content m.summary m.tags m.context
      m.importance m.confidence m.effectiveness (m.usage_count : Int)
      m.created_at m.updated_at m.last_accessed = Except.ok m := by
  unfold Memory.mk?
  rw [if_neg (not_not.mpr ⟨h1, h2⟩), if_neg (by omega : ¬(m.content.length < 1)),
    if_neg (by simp [h6]), if_neg (by simp [h8]), if_neg (by simp [h9]),
    if_neg (by simp [h10]),
    if_neg (by simp : ¬((m.usage_count : Int) < 0))]
  rw [h3, h5, h7]
  simp

/-- Counterexample to C1: encoding a valid Memory whose context has a
non-empty files_involved list and decoding it back does not merely lose
that list field — decoding fails altogether and returns no Memory,
because the str(value) flattening cannot be parsed back into a list and
the conversion error is caught, yielding None. -/
theorem C1_nonempty_context_list_decode_fails :
    neo4j_to_memory 9 (memoryToProps memLossy) = none := by
  decide

/-- C1 amended: for every Memory whose fields are construction-normalized,
whose summary is not the empty string, and whose context (when present)
has empty files_involved, languages, frameworks, technologies and
additional_metadata, decoding the encoded property mapping reproduces the
Memory exactly, in every field; when a context list- or map-valued field
is non-empty, decoding instead fails and returns no Memory at all. -/
theorem C1_encode_decode_roundtrip (m : Memory) (now : Nat)
    (h : m.RoundTrippable) :
    neo4j_to_memory now (memoryToProps m) = some m := by
  obtain ⟨ht1, ht2, ht3, hc1, hc2, hsum, htags, hi1, hi2, hf1, hf2, heff, hctx⟩ := h
  have hsum2 : decStrOpt (s2p "summary") (memoryToProps m) = some m.summary := by
    apply decStrOpt_summary_encode
    cases hs : m.summary with
    | none => exact Or.inl rfl
    | some s => exact Or.inr ⟨s, rfl, (hsum s hs).1⟩
  have hctx2 : decCtx now (memoryToProps m) = some m.context := by
    cases hc : m.context with
    | none => exact decCtx_encode_none now m hc
    | some c =>
      obtain ⟨e1, e2, e3, e4, e5⟩ := hctx c hc
      exact decCtx_encode now m c hc e1 e2 e3 e4 e5
  have h6 : optLe500 m.summary = true := by
    cases hs : m.summary with
    | none => rfl
    | some s =>
      have := (hsum s hs).2
      simp [optLe500, this]
  have h8 : inUnit m.importance = true := by
    simp [inUnit, hi1, hi2]
  have h9 : inUnit m.confidence = true := by
    simp [inUnit, hf1, hf2]
  have h10 : optInUnit m.effectiveness = true := by
    cases he : m.effectiveness with
    | none => rfl
    | some x =>
      obtain ⟨hx1, hx2⟩ := heff x he
      simp [optInUnit, inUnit, hx1, hx2]
  unfold neo4j_to_memory
  simp only [decStrOpt_id_encode, pget_type_encode, MemoryType.ofValue?_value,
    decStr_title_encode, decStr_content_encode, hsum2, decTags_encode,
    decNum_importance_encode, decNum_confidence_encode,
    decNumOpt_effectiveness_encode, decInt_usage_encode, decTime_created_encode,
    decTime_updated_encode, decTimeOpt_last_accessed_encode, hctx2,
    Option.bind_eq_bind, Option.some_bind]
  rw [mk?_of_validated m ht1 ht2 ht3 hc1 hc2 h6 htags h8 h9 h10]
  rfl

/-- Witness for C1 amended at the concrete memory. -/
theorem C1_encode_decode_roundtrip_witness :
    neo4j_to_memory 9 (memoryToProps memRT) = some memRT :=
  C1_encode_decode_roundtrip memRT 9
    (by
      refine ⟨by decide, by decide, by decide, by decide, by decide, ?_,
        by decide, by decide, by decide, by decide, by decide, ?_, ?_⟩
      · intro s hs
        cases hs
        exact ⟨by decide, by decide⟩
      · intro x hx
        cases hx
        exact ⟨by decide, by decide⟩
      · intro c hc
        cases hc
        exact ⟨rfl, rfl, rfl, rfl, rfl⟩)
